import Mathlib

/-!
# Verification of the kqlfilter library (KQL parser / query lowerer)

Shallow embedding of the repository's Go sources:
* `hasmustequal.go` — the constrained-equality probe `HasMustEqual`,
* `filter.go` — the flat-filter projector (`convertToFilter` and friends),
* `filter_spanner.go` — the placeholder-based SQL lowerer `ToSpannerSQL`,
* the elastic package — the boolean-query lowerer `ConvertAST`.

Go `string` is modelled by `String`, `int64` by `Int` with an explicit
`2^63` range check in the numeric parser, `float64` by `Rat` (the decimal
literal parsed exactly; IEEE rounding, hex floats, infinities and NaN are
not modelled — no property below depends on float values), `time.Time` by
the record of fields read by the RFC-3339 parser, and Go errors by
`Except String`.  Go maps passed as configuration are modelled by
association lists; Go map iteration order is unspecified, list order
stands in for it (no property below depends on that order).
-/

/-! ## Models of the Go standard library helpers used by the sources -/

/-- `strconv.ParseInt(value, 10, 64)`: optional sign, decimal digits,
64-bit range check.  Error strings are simplified stand-ins for the
`strconv` errors (their text is never inspected by the repository). -/
def parseInt64 (value : String) : Except String Int :=
  let p : Bool × List Char :=
    match value.toList with
    | '+' :: rest => (false, rest)
    | '-' :: rest => (true, rest)
    | l => (false, l)
  if p.2.isEmpty || !(p.2.all Char.isDigit) then
    .error "invalid syntax"
  else
    let n : Nat := p.2.foldl (fun acc c => acc * 10 + (c.toNat - '0'.toNat)) 0
    let i : Int := if p.1 then -(n : Int) else (n : Int)
    if i < -(2 ^ 63) || (2 ^ 63 : Int) ≤ i then .error "value out of range" else .ok i

/-- Split a character list at the first `e`/`E` (exponent marker). -/
def splitExpMarker : List Char → List Char × Option (List Char)
  | [] => ([], none)
  | c :: cs =>
    if c = 'e' || c = 'E' then ([], some cs)
    else
      let r := splitExpMarker cs
      (c :: r.1, r.2)

/-- Parse a mantissa `digits[.digits]` (at least one digit overall) as an
exact rational. Returns `none` on malformed input. -/
def parseMantissa (l : List Char) : Option Rat :=
  let parts := l.splitOn '.'
  match parts with
  | [intPart] =>
    if intPart.isEmpty || !(intPart.all Char.isDigit) then none
    else some ((intPart.foldl (fun acc c => acc * 10 + (c.toNat - '0'.toNat)) 0 : Nat) : Rat)
  | [intPart, fracPart] =>
    if (intPart.isEmpty && fracPart.isEmpty)
        || !(intPart.all Char.isDigit) || !(fracPart.all Char.isDigit) then none
    else
      let ip : Nat := intPart.foldl (fun acc c => acc * 10 + (c.toNat - '0'.toNat)) 0
      let fp : Nat := fracPart.foldl (fun acc c => acc * 10 + (c.toNat - '0'.toNat)) 0
      some ((ip : Rat) + (fp : Rat) / ((10 : Rat) ^ fracPart.length))
  | _ => none

/-- `strconv.ParseFloat(value, 64)`, restricted to plain decimal literals
with an optional exponent.  The value is kept as an exact rational; the
exotic inputs Go also accepts (hex floats, `Inf`, `NaN`) are rejected.
No property proved below inspects the parsed number. -/
def parseFloat64 (value : String) : Except String Rat :=
  let p : Bool × List Char :=
    match value.toList with
    | '+' :: rest => (false, rest)
    | '-' :: rest => (true, rest)
    | l => (false, l)
  let me := splitExpMarker p.2
  match parseMantissa me.1 with
  | none => .error "invalid syntax"
  | some m =>
    let signed : Rat := if p.1 then -m else m
    match me.2 with
    | none => .ok signed
    | some expChars =>
      let ep : Bool × List Char :=
        match expChars with
        | '+' :: rest => (false, rest)
        | '-' :: rest => (true, rest)
        | l => (false, l)
      if ep.2.isEmpty || !(ep.2.all Char.isDigit) then .error "invalid syntax"
      else
        let e : Nat := ep.2.foldl (fun acc c => acc * 10 + (c.toNat - '0'.toNat)) 0
        .ok (if ep.1 then signed / ((10 : Rat) ^ e) else signed * ((10 : Rat) ^ e))

/-- `strconv.ParseBool`: exactly the strings Go accepts. -/
def parseGoBool (value : String) : Except String Bool :=
  if value = "1" || value = "t" || value = "T" || value = "TRUE" || value = "true" || value = "True" then
    .ok true
  else if value = "0" || value = "f" || value = "F" || value = "FALSE" || value = "false" || value = "False" then
    .ok false
  else .error "invalid syntax"

/-- The fields of a Go `time.Time` observed through parsing and equality
(`==` on `time.Time` compares wall-clock fields and location, which for
RFC-3339 inputs is determined by the parsed text). -/
structure GoTime where
  year : Nat
  month : Nat
  day : Nat
  hour : Nat
  minute : Nat
  second : Nat
  nanos : Nat
  offsetMinutes : Int
deriving DecidableEq, Repr

/-- Read exactly `n` decimal digits from the front of a char list. -/
def readDigits (n : Nat) (l : List Char) : Option (Nat × List Char) :=
  match n with
  | 0 => some (0, l)
  | m + 1 =>
    match l with
    | [] => none
    | c :: cs =>
      if c.isDigit then
        (readDigits m cs).map fun r => ((c.toNat - '0'.toNat) * 10 ^ m + r.1, r.2)
      else none

/-- Days in a month of the proleptic Gregorian calendar. -/
def daysInMonth (year month : Nat) : Nat :=
  if month = 2 then
    if year % 4 = 0 && (year % 100 ≠ 0 || year % 400 = 0) then 29 else 28
  else if month = 4 || month = 6 || month = 9 || month = 11 then 30
  else 31

/-- Take the leading run of digits. -/
def takeDigits : List Char → List Char × List Char
  | [] => ([], [])
  | c :: cs =>
    if c.isDigit then
      let r := takeDigits cs
      (c :: r.1, r.2)
    else ([], c :: cs)

/-- `time.Parse(time.RFC3339, value)`: `YYYY-MM-DDThh:mm:ss`, an optional
fractional-second part, and `Z` or a `±hh:mm` offset, with range checks
on each field.  No property proved below inspects the parsed time. -/
def parseRFC3339 (value : String) : Except String GoTime :=
  match readDigits 4 value.toList with
  | none => .error "cannot parse as RFC3339"
  | some (year, r1) =>
  match r1 with
  | '-' :: r2 =>
    match readDigits 2 r2 with
    | none => .error "cannot parse as RFC3339"
    | some (month, r3) =>
    match r3 with
    | '-' :: r4 =>
      match readDigits 2 r4 with
      | none => .error "cannot parse as RFC3339"
      | some (day, r5) =>
      match r5 with
      | 'T' :: r6 =>
        match readDigits 2 r6 with
        | none => .error "cannot parse as RFC3339"
        | some (hour, r7) =>
        match r7 with
        | ':' :: r8 =>
          match readDigits 2 r8 with
          | none => .error "cannot parse as RFC3339"
          | some (minute, r9) =>
          match r9 with
          | ':' :: r10 =>
            match readDigits 2 r10 with
            | none => .error "cannot parse as RFC3339"
            | some (second, r11) =>
            -- optional fraction
            let fr : Nat × List Char :=
              match r11 with
              | '.' :: r12 =>
                let t := takeDigits r12
                if t.1.isEmpty then (0, '.' :: r12)
                else
                  let scaled :=
                    (t.1.take 9).foldl (fun acc c => acc * 10 + (c.toNat - '0'.toNat)) 0
                    * 10 ^ (9 - min 9 t.1.length)
                  (scaled, t.2)
              | l => (0, l)
            let offs : Except String (Int × List Char) :=
              match fr.2 with
              | ['Z'] => .ok (0, [])
              | '+' :: r13 =>
                match readDigits 2 r13 with
                | some (oh, ':' :: r14) =>
                  match readDigits 2 r14 with
                  | some (om, r15) => .ok ((oh * 60 + om : Nat), r15)
                  | none => .error "cannot parse as RFC3339"
                | _ => .error "cannot parse as RFC3339"
              | '-' :: r13 =>
                match readDigits 2 r13 with
                | some (oh, ':' :: r14) =>
                  match readDigits 2 r14 with
                  | some (om, r15) => .ok (-((oh * 60 + om : Nat) : Int), r15)
                  | none => .error "cannot parse as RFC3339"
                | _ => .error "cannot parse as RFC3339"
              | _ => .error "cannot parse as RFC3339"
            match offs with
            | .error e => .error e
            | .ok (off, rest) =>
              if !rest.isEmpty then .error "cannot parse as RFC3339"
              else if month < 1 || 12 < month then .error "month out of range"
              else if day < 1 || daysInMonth year month < day then .error "day out of range"
              else if 23 < hour then .error "hour out of range"
              else if 59 < minute then .error "minute out of range"
              else if 59 < second then .error "second out of range"
              else .ok ⟨year, month, day, hour, minute, second, fr.1, off⟩
          | _ => .error "cannot parse as RFC3339"
        | _ => .error "cannot parse as RFC3339"
      | _ => .error "cannot parse as RFC3339"
    | _ => .error "cannot parse as RFC3339"
  | _ => .error "cannot parse as RFC3339"

/-- `strings.ReplaceAll` for a single-character pattern (the only shape of
pattern used by this repository), on character lists. -/
def replaceAllChar (c : Char) (r : List Char) : List Char → List Char
  | [] => []
  | x :: xs => if x = c then r ++ replaceAllChar c r xs else x :: replaceAllChar c r xs

/-- `strings.ReplaceAll s (String.singleton c) r` (single-character pattern). -/
def replaceAll1 (s : String) (c : Char) (r : String) : String :=
  ⟨replaceAllChar c r.toList s.toList⟩

/-- `strings.HasSuffix`. -/
def hasSuffix (s sfx : String) : Bool := sfx.toList.isSuffixOf s.toList

/-- `strings.HasPrefix`. -/
def hasPrefix (s p : String) : Bool := p.toList.isPrefixOf s.toList

/-- Go `s[:len(s)-1]` (used only when the last character is ASCII). -/
def dropLastChar (s : String) : String := ⟨s.toList.dropLast⟩

/-- Go `s[1:]` (used only when the first character is ASCII). -/
def dropFirstChar (s : String) : String := ⟨s.toList.tail⟩

namespace Kqlfilter

/-! ## The AST node model (`node.go`)

The node declarations themselves live in the repository's `node.go`;
their shapes are fixed by the spec's data model (§3) and by every use in
`hasmustequal.go`, `filter.go` and the elastic package: `And`/`Or` carry
a list of children (`Nodes`), `Is` an identifier and a value node,
`Range` an identifier, a range operator and a value node, `Not` an inner
expression, `Nested` an inner expression, and `Literal` a string value. -/

/-- `RangeOperator ∈ {<, <=, >, >=}`. -/
inductive RangeOperator
  | Lt
  | Lte
  | Gt
  | Gte
deriving DecidableEq, Repr

/-- `RangeOperator.String()`.  (The Go method also has a `"???"` default
arm for out-of-range integer values of the enum; a closed inductive has
no such values, but `convertRangeNode`'s guard against it is kept.) -/
def RangeOperator.toGoString : RangeOperator → String
  | .Lt => "<"
  | .Lte => "<="
  | .Gt => ">"
  | .Gte => ">="

/-- The closed family of AST nodes. -/
inductive Node
  | literal (value : String)
  | isNode (identifier : String) (value : Node)
  | rangeNode (identifier : String) (operator : RangeOperator) (value : Node)
  | andNode (nodes : List Node)
  | orNode (nodes : List Node)
  | notNode (expr : Node)
  | nestedNode (expr : Node)

/-- The string `%T` prints for a node pointer (used in error messages). -/
def Node.goTypeName : Node → String
  | .literal _ => "*kqlfilter.LiteralNode"
  | .isNode _ _ => "*kqlfilter.IsNode"
  | .rangeNode _ _ _ => "*kqlfilter.RangeNode"
  | .andNode _ => "*kqlfilter.AndNode"
  | .orNode _ => "*kqlfilter.OrNode"
  | .notNode _ => "*kqlfilter.NotNode"
  | .nestedNode _ => "*kqlfilter.NestedNode"

/-! ## `hasmustequal.go` — the constrained-equality probe -/

/-- `hasMustEqualIsNode`: values contributed by one `Is` node.  A `nil`
Go slice and an empty one are both modelled by `[]`. -/
def hasMustEqualIsNode (identifier : String) (value : Node) (field : String) : List String :=
  if identifier ≠ field then []
  else
    match value with
    | .literal v => [v]
    | .orNode ns =>
      ns.filterMap fun n =>
        match n with
        | .literal v => some v
        | _ => none
    | _ => []

/-- `hasMustEqualAndNode`: children that are `Is` nodes contribute their
values; every other child kind is skipped (`default: continue`). -/
def hasMustEqualAndNode : List Node → String → List String
  | [], _ => []
  | .isNode id v :: ns, field => hasMustEqualIsNode id v field ++ hasMustEqualAndNode ns field
  | _ :: ns, field => hasMustEqualAndNode ns field

/-- `hasMustEqualOrNode` body: an `Is` child whose probe is empty makes
the whole result `nil` (modelled as `none`); a child of any other kind is
skipped (`default: continue`). -/
def hasMustEqualOrNodeAux : List Node → String → Option (List String)
  | [], _ => some []
  | .isNode id v :: ns, field =>
    let values_ := hasMustEqualIsNode id v field
    if values_.isEmpty then none
    else (hasMustEqualOrNodeAux ns field).map (values_ ++ ·)
  | _ :: ns, field => hasMustEqualOrNodeAux ns field

/-- `hasMustEqualOrNode`. -/
def hasMustEqualOrNode (ns : List Node) (field : String) : List String :=
  (hasMustEqualOrNodeAux ns field).getD []

/-- `HasMustEqual`.  A `nil` Go AST is modelled by `none`. -/
def HasMustEqual (ast : Option Node) (field : String) : List String :=
  match ast with
  | none => []
  | some (.andNode ns) => hasMustEqualAndNode ns field
  | some (.isNode id v) => hasMustEqualIsNode id v field
  | some (.orNode ns) => hasMustEqualOrNode ns field
  | some _ => []

/-! ## `filter.go` — the flat-filter projector -/

/-- One flat-filter clause. -/
structure Clause where
  Field : String
  Operator : String
  Values : List String
deriving DecidableEq, Repr

/-- A flat filter. -/
structure Filter where
  Clauses : List Clause
deriving DecidableEq, Repr

/-- `convertLiteralNode`: only the boolean literals are supported; they
become the sentinel clause on field `"1"`. -/
def convertLiteralNode (value : String) : Except String Filter :=
  if value ≠ "true" && value ≠ "false" then
    .error ("only boolean literals are supported; " ++ value)
  else if value = "true" then
    .ok ⟨[⟨"1", "=", ["1"]⟩]⟩
  else
    .ok ⟨[⟨"1", "=", ["0"]⟩]⟩

/-- The literal-collecting loop of `convertIsNode`'s `Or` arm. -/
def collectOrLiterals : List Node → Except String (List String)
  | [] => .ok []
  | .literal v :: ns => (collectOrLiterals ns).map (v :: ·)
  | n :: _ => .error ("unsupported node type " ++ n.goTypeName)

/-- `convertIsNode`. -/
def convertIsNode (identifier : String) (value : Node) : Except String Filter :=
  match value with
  | .literal v => .ok ⟨[⟨identifier, "=", [v]⟩]⟩
  | .orNode ns =>
    match collectOrLiterals ns with
    | .error e => .error e
    | .ok vs => .ok ⟨[⟨identifier, "IN", vs⟩]⟩
  | v => .error ("unsupported node type " ++ v.goTypeName)

/-- The operator-rewriting loop of `convertNotNode`. -/
def negateClauses : List Clause → Except String (List Clause)
  | [] => .ok []
  | c :: cs =>
    if c.Operator = "=" then
      (negateClauses cs).map (⟨c.Field, "!=", c.Values⟩ :: ·)
    else
      .error ("cannot support negation on operator " ++ c.Operator)

/-- `convertNotNode`. -/
def convertNotNode (expr : Node) : Except String Filter :=
  match expr with
  | .isNode id v =>
    match convertIsNode id v with
    | .error e => .error e
    | .ok f =>
      match negateClauses f.Clauses with
      | .error e => .error e
      | .ok cs => .ok ⟨cs⟩
  | e => .error ("unsupported node type " ++ e.goTypeName)

/-- `convertRangeNode` (flat-filter flavor). -/
def convertRangeNode (identifier : String) (operator : RangeOperator) (value : Node) : Except String Filter :=
  match value with
  | .literal v =>
    let op := operator.toGoString
    if op = "???" then .error ("unsupported operator " ++ op)
    else .ok ⟨[⟨identifier, op, [v]⟩]⟩
  | v => .error ("unsupported node type " ++ v.goTypeName)

/-- The per-child dispatch inside `convertAndNode`'s loop.  (On an
unsupported child kind the Go code formats `%T` of the enclosing
`*AndNode`, not of the child.) -/
def convertAndChild : Node → Except String Filter
  | .isNode id v => convertIsNode id v
  | .notNode e => convertNotNode e
  | .rangeNode id op v => convertRangeNode id op v
  | .literal v => convertLiteralNode v
  | _ => .error "unsupported node type *kqlfilter.AndNode"

/-- The field-count loop of `convertAndNode`: a running count per field,
erroring as soon as any field's count exceeds two.  `seen` holds the
fields of the clauses already counted. -/
def checkFieldCounts : List Clause → List String → Except String Unit
  | [], _ => .ok ()
  | c :: cs, seen =>
    if 2 < seen.count c.Field + 1 then .error "field count maximum in filter exceeded"
    else checkFieldCounts cs (c.Field :: seen)

/-- `convertAndNode`. -/
def convertAndNode (nodes : List Node) : Except String Filter :=
  match nodes.mapM convertAndChild with
  | .error e => .error e
  | .ok fs =>
    let clauses := (fs.map Filter.Clauses).flatten
    match checkFieldCounts clauses [] with
    | .error e => .error e
    | .ok _ => .ok ⟨clauses⟩

/-- `convertToFilter`.  A `nil` AST (modelled by `none`) yields the empty
filter. -/
def convertToFilter (ast : Option Node) : Except String Filter :=
  match ast with
  | none => .ok ⟨[]⟩
  | some (.andNode ns) => convertAndNode ns
  | some (.isNode id v) => convertIsNode id v
  | some (.rangeNode id op v) => convertRangeNode id op v
  | some (.notNode e) => convertNotNode e
  | some (.literal v) => convertLiteralNode v
  | some n => .error ("unsupported node type " ++ n.goTypeName)

/-! ## `filter_spanner.go` — the placeholder-based SQL lowerer -/

/-- `FilterToSpannerFieldColumnType`. -/
inductive FilterToSpannerFieldColumnType
  | Unspecified
  | String
  | Int64
  | Float64
  | Bool
  | Timestamp
deriving DecidableEq, Repr

/-- `FilterToSpannerFieldColumnType.String()`. -/
def columnTypeGoString : FilterToSpannerFieldColumnType → String
  | .String => "STRING"
  | .Int64 => "INT64"
  | .Float64 => "FLOAT64"
  | .Bool => "BOOL"
  | .Timestamp => "TIMESTAMP"
  | .Unspecified => "???"

/-- A Go `any` value as produced by the lowerer's value pipeline: single
typed values, typed slices, and the `[]any` slice built when a `MapValue`
hook is configured.  (A hook returning Go `nil` is not modelled; the Go
code would panic on it.) -/
inductive SpannerValue
  | str (s : String)
  | int (i : Int)
  | float (q : Rat)
  | bool (b : Bool)
  | time (t : GoTime)
  | strSlice (l : List String)
  | intSlice (l : List Int)
  | floatSlice (l : List Rat)
  | boolSlice (l : List Bool)
  | timeSlice (l : List GoTime)
  | anySlice (l : List SpannerValue)

/-- `reflect.TypeOf(v).Kind() == reflect.Slice`. -/
def SpannerValue.isSlice : SpannerValue → Bool
  | .strSlice _ | .intSlice _ | .floatSlice _ | .boolSlice _ | .timeSlice _ | .anySlice _ => true
  | _ => false

/-- `unwrapSlice`: a slice of exactly one element collapses to that
element. -/
def unwrapSlice : SpannerValue → SpannerValue
  | .strSlice [v] => .str v
  | .intSlice [v] => .int v
  | .floatSlice [v] => .float v
  | .boolSlice [v] => .bool v
  | .timeSlice [v] => .time v
  | .anySlice [v] => v
  | v => v

/-- `FilterToSpannerFieldConfig`.  The `MapValue` hook returns a Go
`(any, error)` pair, modelled as `Except String SpannerValue`. -/
structure FilterToSpannerFieldConfig where
  ColumnName : String := ""
  ColumnType : FilterToSpannerFieldColumnType := .Unspecified
  Required : Bool := false
  Requires : List String := []
  AllowPrefixMatch : Bool := false
  AllowSuffixMatch : Bool := false
  AllowCaseInsensitiveMatch : Bool := false
  AllowMultipleValues : Bool := false
  AllowRanges : Bool := false
  AllowContains : Bool := false
  AllowContainedBy : Bool := false
  AllowNegation : Bool := false
  Aliases : List String := []
  MapValue : Option (String → Except String SpannerValue) := none
  Ignore : Bool := false

/-- The `INT64` arm of `convertValue` (wrapping the `strconv` error as
the Go code does). -/
def convertInt64 (value : String) : Except String Int :=
  match parseInt64 value with
  | .ok i => .ok i
  | .error e => .error ("invalid INT64 value: " ++ e)

/-- The `FLOAT64` arm of `convertValue`. -/
def convertFloat64 (value : String) : Except String Rat :=
  match parseFloat64 value with
  | .ok q => .ok q
  | .error e => .error ("invalid FLOAT64 value: " ++ e)

/-- The `BOOL` arm of `convertValue`. -/
def convertBool (value : String) : Except String Bool :=
  match parseGoBool value with
  | .ok b => .ok b
  | .error e => .error ("invalid BOOL value: " ++ e)

/-- The `TIMESTAMP` arm of `convertValue`. -/
def convertTimestamp (value : String) : Except String GoTime :=
  match parseRFC3339 value with
  | .ok t => .ok t
  | .error e => .error ("invalid TIMESTAMP value: " ++ e)

/-- `FilterToSpannerFieldConfig.convertValue`.  The `Unspecified` default
arm is the boolean-literal special case (`"0"`/`"1"` become `int64`). -/
def FilterToSpannerFieldConfig.convertValue (f : FilterToSpannerFieldConfig)
    (value : String) : Except String SpannerValue :=
  match f.ColumnType with
  | .Int64 => (convertInt64 value).map .int
  | .Float64 => (convertFloat64 value).map .float
  | .Bool => (convertBool value).map .bool
  | .Timestamp => (convertTimestamp value).map .time
  | .String => .ok (.str value)
  | .Unspecified =>
    if value = "0" then .ok (.int 0)
    else if value = "1" then .ok (.int 1)
    else .ok (.str value)

/-- `FilterToSpannerFieldConfig.mapValues`. -/
def FilterToSpannerFieldConfig.mapValues (f : FilterToSpannerFieldConfig)
    (values : List String) : Except String SpannerValue :=
  let outputValue : Except String SpannerValue :=
    match f.MapValue with
    | some h =>
      match values.mapM h with
      | .error e => .error e
      | .ok l => .ok (.anySlice l)
    | none => .ok (.strSlice values)
  match outputValue with
  | .error e => .error e
  | .ok ov =>
    let ov := unwrapSlice ov
    if !(f.AllowMultipleValues || f.AllowContains || f.AllowContainedBy) && ov.isSlice then
      .error "multiple values are not allowed"
    else
      match ov with
      | .str s => f.convertValue s
      | .strSlice l =>
        match f.ColumnType with
        | .Int64 => (l.mapM convertInt64).map .intSlice
        | .Float64 => (l.mapM convertFloat64).map .floatSlice
        | .Bool => (l.mapM convertBool).map .boolSlice
        | .Timestamp => (l.mapM convertTimestamp).map .timeSlice
        | _ => .ok (.strSlice l)
      | v => .ok v

/-- `parseAnyToSlice[string]`.  (The `nil` input arm of the Go generic
cannot arise here: `mapValues` never returns a Go `nil` value.) -/
def parseAnyToSliceString : SpannerValue → Except String (List String)
  | .str s => .ok [s]
  | .strSlice l => .ok l
  | .anySlice l =>
    l.mapM fun x =>
      match x with
      | .str s => .ok s
      | _ => .error "values' type in any slice doesn't match the expectation"
  | _ => .error "cannot parse input to a slice"

/-- `parseAnyToSlice[int64]`. -/
def parseAnyToSliceInt64 : SpannerValue → Except String (List Int)
  | .int i => .ok [i]
  | .intSlice l => .ok l
  | .anySlice l =>
    l.mapM fun x =>
      match x with
      | .int i => .ok i
      | _ => .error "values' type in any slice doesn't match the expectation"
  | _ => .error "cannot parse input to a slice"

/-- `parseAnyToSlice[float64]`. -/
def parseAnyToSliceFloat64 : SpannerValue → Except String (List Rat)
  | .float q => .ok [q]
  | .floatSlice l => .ok l
  | .anySlice l =>
    l.mapM fun x =>
      match x with
      | .float q => .ok q
      | _ => .error "values' type in any slice doesn't match the expectation"
  | _ => .error "cannot parse input to a slice"

/-- `parseAnyToSlice[time.Time]`. -/
def parseAnyToSliceTime : SpannerValue → Except String (List GoTime)
  | .time t => .ok [t]
  | .timeSlice l => .ok l
  | .anySlice l =>
    l.mapM fun x =>
      match x with
      | .time t => .ok t
      | _ => .error "values' type in any slice doesn't match the expectation"
  | _ => .error "cannot parse input to a slice"

/-- The loop of `uniqueSliceElements`, with `seen` holding the elements
already emitted (the Go code uses a `map[T]bool`). -/
def uniqueSliceElementsAux {T : Type} [DecidableEq T] (seen : List T) : List T → List T
  | [] => []
  | x :: xs =>
    if x ∈ seen then uniqueSliceElementsAux seen xs
    else x :: uniqueSliceElementsAux (x :: seen) xs

/-- `uniqueSliceElements`: removes duplicate elements, keeping first
occurrences. -/
def uniqueSliceElements {T : Type} [DecidableEq T] (inputSlice : List T) : List T :=
  uniqueSliceElementsAux [] inputSlice

/-- `escapePrefixSuffixSpecialChars`: escape `\`, `_` and `%`. -/
def escapePrefixSuffixSpecialChars (s : String) : String :=
  let s := replaceAll1 s '\\' "\\\\"
  let s := replaceAll1 s '_' "\\_"
  replaceAll1 s '%' "\\%"

/-- Outcome of one iteration of the `ToSpannerSQL` clause loop: dropped
(`Ignore`), a predicate plus a parameter, or — for an operator matched by
no arm of the Go `switch` — a parameter with no predicate (the Go loop
still executes `params[paramName] = mappedValue; paramIndex++`). -/
inductive ClauseOutcome
  | skipped
  | emitted (cond : String) (value : SpannerValue)
  | paramOnly (value : SpannerValue)

/-- The `switch operator` statement of `ToSpannerSQL` (lines 344–449):
given the resolved config and the mapped value, produce the optional
predicate string and the final parameter value. -/
def applyOperator (fieldConfig : FilterToSpannerFieldConfig) (clauseField : String)
    (columnName paramName : String) (mappedValue : SpannerValue) (operator : String) :
    Except String (Option String × SpannerValue) :=
  match operator with
  | "IN" | "<@" | ">@" =>
    let parsed : Except String SpannerValue :=
      match fieldConfig.ColumnType with
      | .String => (parseAnyToSliceString mappedValue).map fun l => .strSlice (uniqueSliceElements l)
      | .Int64 => (parseAnyToSliceInt64 mappedValue).map fun l => .intSlice (uniqueSliceElements l)
      | .Float64 => (parseAnyToSliceFloat64 mappedValue).map fun l => .floatSlice (uniqueSliceElements l)
      | .Timestamp => (parseAnyToSliceTime mappedValue).map fun l => .timeSlice (uniqueSliceElements l)
      | t => .error ("operator " ++ operator ++ " not supported for field type " ++ columnTypeGoString t)
    match parsed with
    | .error e => .error e
    | .ok mv =>
      if operator = "IN" then
        .ok (some (columnName ++ " " ++ operator ++ " UNNEST(@" ++ paramName ++ ")"), mv)
      else if operator = "<@" then
        if !fieldConfig.AllowContainedBy then
          .error ("operator " ++ operator ++ " not supported for field: " ++ clauseField)
        else
          .ok (some ("ARRAY_LENGTH(" ++ columnName ++ ") = ARRAY_LENGTH(ARRAY(SELECT x FROM UNNEST("
            ++ columnName ++ ") AS x WHERE x IN UNNEST(@" ++ paramName ++ ")))"), mv)
      else
        if !fieldConfig.AllowContains then
          .error ("operator " ++ operator ++ " not supported for field: " ++ clauseField)
        else
          .ok (some ("ARRAY_LENGTH(ARRAY(SELECT x FROM UNNEST(@" ++ paramName
            ++ ") AS x WHERE x IN UNNEST(" ++ columnName ++ "))) = ARRAY_LENGTH(@"
            ++ paramName ++ ")"), mv)
  | "=" | "!=" =>
    if !fieldConfig.AllowNegation && operator = "!=" then
      .error ("operator " ++ operator ++ " not supported for field: " ++ clauseField)
    else
      match mappedValue with
      | .str mappedString =>
        let needsPrefixMatch := fieldConfig.AllowPrefixMatch && hasSuffix mappedString "*"
          && !(hasSuffix mappedString "\\*")
        let needsSuffixMatch := fieldConfig.AllowSuffixMatch && hasPrefix mappedString "*"
        let likeOp := if operator = "!=" then " NOT LIKE " else " LIKE "
        if needsPrefixMatch && needsSuffixMatch then
          let s := escapePrefixSuffixSpecialChars mappedString
          let mv := SpannerValue.str ("%" ++ dropLastChar (dropFirstChar s) ++ "%")
          if fieldConfig.AllowCaseInsensitiveMatch then
            .ok (some ("LOWER(" ++ columnName ++ ")" ++ likeOp ++ "LOWER(@" ++ paramName ++ ")"), mv)
          else
            .ok (some (columnName ++ likeOp ++ "@" ++ paramName), mv)
        else if needsPrefixMatch then
          let s := escapePrefixSuffixSpecialChars mappedString
          let mv := SpannerValue.str (dropLastChar s ++ "%")
          if fieldConfig.AllowCaseInsensitiveMatch then
            .ok (some ("LOWER(" ++ columnName ++ ")" ++ likeOp ++ "LOWER(@" ++ paramName ++ ")"), mv)
          else
            .ok (some (columnName ++ likeOp ++ "@" ++ paramName), mv)
        else if needsSuffixMatch then
          let s := escapePrefixSuffixSpecialChars mappedString
          let mv := SpannerValue.str ("%" ++ dropFirstChar s)
          if fieldConfig.AllowCaseInsensitiveMatch then
            .ok (some ("LOWER(" ++ columnName ++ ")" ++ likeOp ++ "LOWER(@" ++ paramName ++ ")"), mv)
          else
            .ok (some (columnName ++ likeOp ++ "@" ++ paramName), mv)
        else
          .ok (some (columnName ++ operator ++ "@" ++ paramName), .str mappedString)
      | mv => .ok (some (columnName ++ operator ++ "@" ++ paramName), mv)
  | ">=" | "<=" | ">" | "<" =>
    if !fieldConfig.AllowRanges then
      .error ("operator " ++ operator ++ " not supported for field: " ++ clauseField)
    else
      match fieldConfig.ColumnType with
      | .Int64 | .Float64 | .Timestamp =>
        .ok (some (columnName ++ operator ++ "@" ++ paramName), mappedValue)
      | t => .error ("operator " ++ operator ++ " not supported for field type " ++ columnTypeGoString t)
  | _ => .ok (none, mappedValue)

/-- Field resolution: direct lookup in the config map, then a search
through every config's `Aliases`.  (Go iterates the map in unspecified
order; the association list's order stands in for it.) -/
def resolveFieldConfig (fieldConfigs : List (String × FilterToSpannerFieldConfig))
    (field : String) : Option FilterToSpannerFieldConfig :=
  match fieldConfigs.lookup field with
  | some fc => some fc
  | none => (fieldConfigs.find? fun p => p.2.Aliases.contains field).map (·.2)

/-- The `Requires` check: every required companion must appear in the
filter, where a clause matches if its field equals the companion or is
one of the *current config's* aliases (sic, as in the Go code). -/
def checkRequires (fieldConfig : FilterToSpannerFieldConfig) (clauseField : String)
    (allClauses : List Clause) : Except String Unit :=
  go fieldConfig.Requires
where
  go : List String → Except String Unit
    | [] => .ok ()
    | r :: rs =>
      if allClauses.any fun c => c.Field = r || fieldConfig.Aliases.contains c.Field then go rs
      else .error (clauseField ++ " can only be used in this filter in combination with " ++ r)

/-- The unresolved-field special case of `ToSpannerSQL`:
`clause.Field == "1" && clause.Operator == "=" && len(clause.Values) == 1
&& (clause.Values[0] == "1" || clause.Values[0] == "0")`. -/
def isBoolLiteralSentinel (clause : Clause) : Bool :=
  clause.Field = "1" && clause.Operator = "="
    && (clause.Values = ["1"] || clause.Values = ["0"])

/-- The body of the `ToSpannerSQL` clause loop for one clause. -/
def processClause (fieldConfigs : List (String × FilterToSpannerFieldConfig))
    (allClauses : List Clause) (paramIndex : Nat) (clause : Clause) :
    Except String ClauseOutcome :=
  let resolved : Except String FilterToSpannerFieldConfig :=
    match resolveFieldConfig fieldConfigs clause.Field with
    | some fc => .ok fc
    | none =>
      -- Special case for boolean literals
      if isBoolLiteralSentinel clause then
        .ok {}
      else
        .error ("unknown field: " ++ clause.Field)
  match resolved with
  | .error e => .error e
  | .ok fieldConfig =>
    if fieldConfig.Ignore then .ok .skipped
    else
      match checkRequires fieldConfig clause.Field allClauses with
      | .error e => .error e
      | .ok _ =>
        let columnName := if fieldConfig.ColumnName = "" then clause.Field else fieldConfig.ColumnName
        match fieldConfig.mapValues clause.Values with
        | .error e => .error ("field " ++ clause.Field ++ ": " ++ e)
        | .ok mappedValue =>
          let operator := clause.Operator
          if 1 < clause.Values.length
              && !(operator = "IN" || operator = "<@" || operator = ">@") then
            .error ("operator " ++ operator ++ " doesn't support multiple values in field: " ++ clause.Field)
          else
            let paramName := "KQL" ++ toString paramIndex
            match applyOperator fieldConfig clause.Field columnName paramName mappedValue operator with
            | .error e => .error e
            | .ok (some cond, v) => .ok (.emitted cond v)
            | .ok (none, v) => .ok (.paramOnly v)

/-- The `ToSpannerSQL` clause loop: accumulates predicate strings and the
parameter map (as an association list in insertion order), incrementing
the placeholder index for every clause that is not dropped by `Ignore`. -/
def toSpannerSQLLoop (fieldConfigs : List (String × FilterToSpannerFieldConfig))
    (allClauses : List Clause) :
    List Clause → Nat → List String → List (String × SpannerValue) →
    Except String (List String × List (String × SpannerValue) × Nat)
  | [], paramIndex, condAnds, params => .ok (condAnds, params, paramIndex)
  | clause :: rest, paramIndex, condAnds, params =>
    match processClause fieldConfigs allClauses paramIndex clause with
    | .error e => .error e
    | .ok .skipped => toSpannerSQLLoop fieldConfigs allClauses rest paramIndex condAnds params
    | .ok (.emitted cond v) =>
      toSpannerSQLLoop fieldConfigs allClauses rest (paramIndex + 1)
        (condAnds ++ [cond]) (params ++ [("KQL" ++ toString paramIndex, v)])
    | .ok (.paramOnly v) =>
      toSpannerSQLLoop fieldConfigs allClauses rest (paramIndex + 1)
        condAnds (params ++ [("KQL" ++ toString paramIndex, v)])

/-- The post-loop `Required` check of `ToSpannerSQL`. -/
def checkRequiredFields (fieldConfigs : List (String × FilterToSpannerFieldConfig))
    (allClauses : List Clause) : Except String Unit :=
  match fieldConfigs with
  | [] => .ok ()
  | (field, fieldConfig) :: rest =>
    if fieldConfig.Required
        && !(allClauses.any fun c => c.Field = field || fieldConfig.Aliases.contains c.Field) then
      .error ("required field " ++ field ++ " missing")
    else checkRequiredFields rest allClauses

/-- `Filter.ToSpannerSQL`: the partial-WHERE-clause lowering.  Returns
the predicate strings and the parameter bindings (`params` is the Go map
as an association list in insertion order; its keys are distinct). -/
def Filter.ToSpannerSQL (f : Filter) (fieldConfigs : List (String × FilterToSpannerFieldConfig)) :
    Except String (List String × List (String × SpannerValue)) :=
  match toSpannerSQLLoop fieldConfigs f.Clauses f.Clauses 0 [] [] with
  | .error e => .error e
  | .ok (condAnds, params, _) =>
    match checkRequiredFields fieldConfigs f.Clauses with
    | .error e => .error e
    | .ok _ => .ok (condAnds, params)

/-! ## The elastic package — the boolean-query (tree) lowerer

The Go hooks return `(string, error)` pairs and the converter assigns
both results at once (`lit.Value, err = q.mapFieldValue(id, lit.Value)`),
so the literal is overwritten even on a hook error; the hooks are
therefore modelled as `String → String × Option String` (mapped value,
optional error), and every conversion function returns the post-call AST
next to its result, which models the Go code's in-place pointer writes. -/

namespace Elastic

/-- The range-query document: numeric (from a parsed float) or date
(from an RFC-3339 string). -/
inductive EsRangeQuery
  | number (op : RangeOperator) (v : Rat)
  | date (op : RangeOperator) (v : String)

/-- The shapes of `types.Query` documents the converter emits. -/
inductive EsQuery
  | boolMust (clauses : List EsQuery)
  | boolShould (clauses : List EsQuery)
  | boolMustNot (clause : EsQuery)
  | term (field : String) (value : String)
  | terms (field : String) (values : List String)
  | range (field : String) (rq : EsRangeQuery)
  | matchAll
  | matchNone

/-- `QueryGenerator`: the two user hooks. -/
structure QueryGenerator where
  mapFieldName : String → String × Option String
  mapFieldValue : String → String → String × Option String

/-- `defaultFieldNameMapper`/`defaultFieldValueMapper`: identities. -/
def NewQueryGenerator : QueryGenerator :=
  ⟨fun name => (name, none), fun _ value => (value, none)⟩

/-- `convertRangeNode` (elastic flavor): numeric if the literal parses as
a float, otherwise a date range if it parses as RFC-3339, otherwise an
error. -/
def convertRangeNode (op : RangeOperator) (value : String) : Except String EsRangeQuery :=
  match parseFloat64 value with
  | .ok fVal => .ok (.number op fVal)
  | .error _ =>
    match parseRFC3339 value with
    | .ok _ => .ok (.date op value)
    | .error _ => .error "expected number or date literal"

/-- The per-child loop of the `Is`-with-`Or`-value arm: each child must
be a literal; its value is overwritten with the hook's result (also when
the hook errors) and collected. -/
def mapOrLiterals (g : QueryGenerator) (id : String) :
    List Node → (Except String (List String)) × List Node
  | [] => (.ok [], [])
  | .literal v :: ns =>
    let m := g.mapFieldValue id v
    match m.2 with
    | some e => (.error (id ++ ": " ++ e), .literal m.1 :: ns)
    | none =>
      match mapOrLiterals g id ns with
      | (.error e, ns') => (.error e, .literal m.1 :: ns')
      | (.ok ws, ns') => (.ok (m.1 :: ws), .literal m.1 :: ns')
  | n :: ns => (.error (id ++ ": invalid syntax"), n :: ns)

mutual

/-- `convertNodeToQuery`: lowers one node, returning the emitted query
(or error) together with the post-call node. -/
def convertNodeToQuery (g : QueryGenerator) : Node → String → (Except String EsQuery) × Node
  | .andNode nodes, pfx =>
    match convertNodes g nodes pfx with
    | (.error e, nodes') => (.error e, .andNode nodes')
    | (.ok clauses, nodes') => (.ok (.boolMust clauses), .andNode nodes')
  | .orNode nodes, pfx =>
    match convertNodes g nodes pfx with
    | (.error e, nodes') => (.error e, .orNode nodes')
    | (.ok clauses, nodes') => (.ok (.boolShould clauses), .orNode nodes')
  | .notNode expr, pfx =>
    match convertNodeToQuery g expr pfx with
    | (.error e, expr') => (.error e, .notNode expr')
    | (.ok q, expr') => (.ok (.boolMustNot q), .notNode expr')
  | .isNode identifier value, pfx =>
    let m := g.mapFieldName (pfx ++ identifier)
    match m.2 with
    | some e => (.error (m.1 ++ ": " ++ e), .isNode identifier value)
    | none =>
      match value with
      | .nestedNode inner =>
        -- Transform x:{y:z} syntax: prefix inner identifiers with id ++ "."
        match convertNodeToQuery g inner (m.1 ++ ".") with
        | (res, inner') => (res, .isNode identifier (.nestedNode inner'))
      | .orNode children =>
        match mapOrLiterals g m.1 children with
        | (.error e, children') => (.error e, .isNode identifier (.orNode children'))
        | (.ok vals, children') =>
          (.ok (.terms m.1 vals), .isNode identifier (.orNode children'))
      | .literal v =>
        let mv := g.mapFieldValue m.1 v
        match mv.2 with
        | some e => (.error (m.1 ++ ": " ++ e), .isNode identifier (.literal mv.1))
        | none => (.ok (.term m.1 mv.1), .isNode identifier (.literal mv.1))
      | other => (.error (m.1 ++ ": expected literal node"), .isNode identifier other)
  | .rangeNode identifier op value, pfx =>
    let m := g.mapFieldName (pfx ++ identifier)
    match m.2 with
    | some e => (.error e, .rangeNode identifier op value)
    | none =>
      match value with
      | .literal v =>
        let mv := g.mapFieldValue m.1 v
        match mv.2 with
        | some e => (.error (m.1 ++ ": " ++ e), .rangeNode identifier op (.literal mv.1))
        | none =>
          match convertRangeNode op mv.1 with
          | .error e => (.error (m.1 ++ ": " ++ e), .rangeNode identifier op (.literal mv.1))
          | .ok rq => (.ok (.range m.1 rq), .rangeNode identifier op (.literal mv.1))
      | other => (.error (m.1 ++ ": expected literal node"), .rangeNode identifier op other)
  | .literal v, _ =>
    if v ≠ "true" && v ≠ "false" then
      (.error ("only boolean literals are supported; " ++ v), .literal v)
    else if v = "true" then (.ok .matchAll, .literal v)
    else (.ok .matchNone, .literal v)
  | .nestedNode expr, _ =>
    (.error "unexpected node type: *kqlfilter.NestedNode", .nestedNode expr)

/-- The child loop of the `And`/`Or` arms: convert children in order,
stopping at the first error (children after it keep their pre-call
state, as their pointers were never touched). -/
def convertNodes (g : QueryGenerator) : List Node → String → (Except String (List EsQuery)) × List Node
  | [], _ => (.ok [], [])
  | n :: ns, pfx =>
    match convertNodeToQuery g n pfx with
    | (.error e, n') => (.error e, n' :: ns)
    | (.ok q, n') =>
      match convertNodes g ns pfx with
      | (.error e, ns') => (.error e, n' :: ns')
      | (.ok qs, ns') => (.ok (q :: qs), n' :: ns')

end

/-- `QueryGenerator.ConvertAST`. -/
def ConvertAST (g : QueryGenerator) (root : Node) : (Except String EsQuery) × Node :=
  convertNodeToQuery g root ""

end Elastic

/-! ## Reference definition from the spec's words -/

/-- Modelled from the spec: "the emitted parameter array has no duplicate
elements and preserves first-occurrence order" — the canonical
first-occurrence deduplication: keep each element's first occurrence,
erase the rest. To be compared with `uniqueSliceElements` from the
source. -/
def firstOccur {T : Type} [DecidableEq T] : List T → List T
  | [] => []
  | x :: xs => x :: firstOccur (xs.filter fun y => y != x)
termination_by l => l.length
decreasing_by
  simp only [List.length_cons]
  exact Nat.lt_succ_of_le (List.length_filter_le _ _)

/-! ## Lemmas about deduplication -/

theorem firstOccur_subset {T : Type} [DecidableEq T] (l : List T) :
    ∀ a, a ∈ firstOccur l → a ∈ l := by
  induction l using firstOccur.induct with
  | case1 => intro a h; simp [firstOccur] at h
  | case2 x xs ih =>
    intro a h
    rw [firstOccur] at h
    rcases List.mem_cons.mp h with h | h
    · simp [h]
    · have := ih a h
      exact List.mem_cons_of_mem _ (List.mem_of_mem_filter this)

theorem firstOccur_nodup {T : Type} [DecidableEq T] (l : List T) :
    (firstOccur l).Nodup := by
  induction l using firstOccur.induct with
  | case1 => simp [firstOccur]
  | case2 x xs ih =>
    rw [firstOccur]
    refine List.nodup_cons.mpr ⟨fun hx => ?_, ih⟩
    have := firstOccur_subset _ _ hx
    simp [List.mem_filter] at this

theorem uniqueSliceElementsAux_eq_firstOccur {T : Type} [DecidableEq T] :
    ∀ (l seen : List T),
      uniqueSliceElementsAux seen l = firstOccur (l.filter fun y => decide (y ∉ seen)) := by
  intro l
  induction l with
  | nil => intro seen; simp [uniqueSliceElementsAux, firstOccur]
  | cons x xs ih =>
    intro seen
    by_cases hx : x ∈ seen
    · simp only [uniqueSliceElementsAux, if_pos hx, List.filter_cons]
      simp [hx, ih seen]
    · simp only [uniqueSliceElementsAux, if_neg hx, List.filter_cons]
      simp only [hx, not_false_eq_true, decide_True, if_true]
      rw [firstOccur.eq_2, ih (x :: seen), List.filter_filter]
      have hf : List.filter (fun y => decide (y ∉ x :: seen)) xs
          = List.filter (fun a => a != x && decide (a ∉ seen)) xs := by
        apply List.filter_congr
        intro a _
        by_cases hax : a = x <;> by_cases has : a ∈ seen <;>
          simp [hax, has, List.mem_cons]
      rw [hf]

theorem uniqueSliceElements_eq_firstOccur {T : Type} [DecidableEq T] (l : List T) :
    uniqueSliceElements l = firstOccur l := by
  rw [uniqueSliceElements, uniqueSliceElementsAux_eq_firstOccur]
  congr 1
  simp

theorem uniqueSliceElements_nodup {T : Type} [DecidableEq T] (l : List T) :
    (uniqueSliceElements l).Nodup := by
  rw [uniqueSliceElements_eq_firstOccur]; exact firstOccur_nodup l

/-! ## C1 — the constrained-equality probe on `Or` nodes -/

/-- C1 (code bug): the claim (and the spec, and `HasMustEqual`'s own doc
comment, which promise values the field *must* equal) say an `Or` with a
child that is not an `Is` against the target is unconstrained (`null`);
the code instead *skips* such children (`default: continue` in
`hasMustEqualOrNode`).  Concretely, on the AST of
`type_id:team or type_id>=5` the probe returns `["team"]`, although the
filter is satisfiable with `type_id ≠ "team"`. -/
theorem hasMustEqualOrNode_skips_non_is_children :
    HasMustEqual
      (some (.orNode [.isNode "type_id" (.literal "team"),
                      .rangeNode "type_id" .Gte (.literal "5")]))
      "type_id" = ["team"] := rfl

/-! ## C2 — does the boolean-query lowering leave the AST unchanged? -/

namespace Elastic

theorem mapOrLiterals_preserves (g : QueryGenerator) (id : String)
    (hv : ∀ n v, (g.mapFieldValue n v).1 = v) :
    ∀ ns : List Node, (mapOrLiterals g id ns).2 = ns := by
  intro ns
  induction ns with
  | nil => simp [mapOrLiterals]
  | cons n ns ih =>
    cases n with
    | literal v =>
      have hv1 := hv id v
      rcases hc : g.mapFieldValue id v with ⟨w, err⟩
      rw [hc] at hv1; simp at hv1
      cases err with
      | some e => simp [mapOrLiterals, hc, hv1]
      | none =>
        rcases hr : mapOrLiterals g id ns with ⟨res, ns'⟩
        rw [hr] at ih; simp at ih
        cases res <;> simp [mapOrLiterals, hc, hr, hv1, ih]
    | isNode i v => simp [mapOrLiterals]
    | rangeNode i op v => simp [mapOrLiterals]
    | andNode l => simp [mapOrLiterals]
    | orNode l => simp [mapOrLiterals]
    | notNode e => simp [mapOrLiterals]
    | nestedNode e => simp [mapOrLiterals]

mutual

theorem convertNodeToQuery_preserves (g : QueryGenerator)
    (hv : ∀ n v, (g.mapFieldValue n v).1 = v) :
    ∀ (node : Node) (pfx : String), (convertNodeToQuery g node pfx).2 = node
  | .andNode nodes, pfx => by
    have h := convertNodes_preserves g hv nodes pfx
    rcases hc : convertNodes g nodes pfx with ⟨res, nodes'⟩
    rw [hc] at h; simp at h
    cases res <;> simp [convertNodeToQuery, hc, h]
  | .orNode nodes, pfx => by
    have h := convertNodes_preserves g hv nodes pfx
    rcases hc : convertNodes g nodes pfx with ⟨res, nodes'⟩
    rw [hc] at h; simp at h
    cases res <;> simp [convertNodeToQuery, hc, h]
  | .notNode expr, pfx => by
    have h := convertNodeToQuery_preserves g hv expr pfx
    rcases hc : convertNodeToQuery g expr pfx with ⟨res, expr'⟩
    rw [hc] at h; simp at h
    cases res <;> simp [convertNodeToQuery, hc, h]
  | .isNode identifier value, pfx => by
    cases value with
    | nestedNode inner =>
      rcases hm : g.mapFieldName (pfx ++ identifier) with ⟨id, err⟩
      cases err with
      | some e => simp [convertNodeToQuery, hm]
      | none =>
        have h := convertNodeToQuery_preserves g hv inner (id ++ ".")
        rcases hc : convertNodeToQuery g inner (id ++ ".") with ⟨res, inner'⟩
        rw [hc] at h; simp at h
        simp [convertNodeToQuery, hm, hc, h]
    | orNode children =>
      rcases hm : g.mapFieldName (pfx ++ identifier) with ⟨id, err⟩
      cases err with
      | some e => simp [convertNodeToQuery, hm]
      | none =>
        have h := mapOrLiterals_preserves g id hv children
        rcases hc : mapOrLiterals g id children with ⟨res, children'⟩
        rw [hc] at h; simp at h
        cases res <;> simp [convertNodeToQuery, hm, hc, h]
    | literal v =>
      rcases hm : g.mapFieldName (pfx ++ identifier) with ⟨id, err⟩
      cases err with
      | some e => simp [convertNodeToQuery, hm]
      | none =>
        have hv1 := hv id v
        rcases hc : g.mapFieldValue id v with ⟨w, err2⟩
        rw [hc] at hv1; simp at hv1
        subst hv1
        cases err2 <;> simp [convertNodeToQuery, hm, hc]
    | isNode i v =>
      rcases hm : g.mapFieldName (pfx ++ identifier) with ⟨id, err⟩
      cases err <;> simp [convertNodeToQuery, hm]
    | rangeNode i op v =>
      rcases hm : g.mapFieldName (pfx ++ identifier) with ⟨id, err⟩
      cases err <;> simp [convertNodeToQuery, hm]
    | andNode l =>
      rcases hm : g.mapFieldName (pfx ++ identifier) with ⟨id, err⟩
      cases err <;> simp [convertNodeToQuery, hm]
    | notNode e =>
      rcases hm : g.mapFieldName (pfx ++ identifier) with ⟨id, err⟩
      cases err <;> simp [convertNodeToQuery, hm]
  | .rangeNode identifier op value, pfx => by
    cases value with
    | literal v =>
      rcases hm : g.mapFieldName (pfx ++ identifier) with ⟨id, err⟩
      cases err with
      | some e => simp [convertNodeToQuery, hm]
      | none =>
        have hv1 := hv id v
        rcases hc : g.mapFieldValue id v with ⟨w, err2⟩
        rw [hc] at hv1; simp at hv1
        subst hv1
        cases err2 with
        | some e => simp [convertNodeToQuery, hm, hc]
        | none =>
          cases hr : convertRangeNode op w <;> simp [convertNodeToQuery, hm, hc, hr]
    | isNode i v =>
      rcases hm : g.mapFieldName (pfx ++ identifier) with ⟨id, err⟩
      cases err <;> simp [convertNodeToQuery, hm]
    | rangeNode i o v =>
      rcases hm : g.mapFieldName (pfx ++ identifier) with ⟨id, err⟩
      cases err <;> simp [convertNodeToQuery, hm]
    | andNode l =>
      rcases hm : g.mapFieldName (pfx ++ identifier) with ⟨id, err⟩
      cases err <;> simp [convertNodeToQuery, hm]
    | orNode l =>
      rcases hm : g.mapFieldName (pfx ++ identifier) with ⟨id, err⟩
      cases err <;> simp [convertNodeToQuery, hm]
    | notNode e =>
      rcases hm : g.mapFieldName (pfx ++ identifier) with ⟨id, err⟩
      cases err <;> simp [convertNodeToQuery, hm]
    | nestedNode e =>
      rcases hm : g.mapFieldName (pfx ++ identifier) with ⟨id, err⟩
      cases err <;> simp [convertNodeToQuery, hm]
  | .literal v, pfx => by
    simp only [convertNodeToQuery]
    split
    · rfl
    · split <;> rfl
  | .nestedNode expr, pfx => by simp [convertNodeToQuery]

theorem convertNodes_preserves (g : QueryGenerator)
    (hv : ∀ n v, (g.mapFieldValue n v).1 = v) :
    ∀ (ns : List Node) (pfx : String), (convertNodes g ns pfx).2 = ns
  | [], _ => by simp [convertNodes]
  | n :: ns, pfx => by
    have h1 := convertNodeToQuery_preserves g hv n pfx
    have h2 := convertNodes_preserves g hv ns pfx
    rcases hc1 : convertNodeToQuery g n pfx with ⟨r1, n'⟩
    rw [hc1] at h1; simp at h1
    cases r1 with
    | error e => simp [convertNodes, hc1, h1]
    | ok q =>
      rcases hc2 : convertNodes g ns pfx with ⟨r2, ns'⟩
      rw [hc2] at h2; simp at h2
      cases r2 <;> simp [convertNodes, hc1, hc2, h1, h2]

end

/-- C2 (amended): lowering an AST with `ConvertAST` preserves the node
structure and identifiers but overwrites literal values in place with the
output of the field-value mapping hook; hence the AST is unchanged
exactly as far as the hook maps each value to itself.  This theorem is
the preserved direction: whenever the field-value hook returns its input
value (as the default hook does), the AST after `ConvertAST` is
identical to the AST before, for every field-name hook and every AST. -/
theorem convertAST_unchanged_iff_value_mapper_identity (g : QueryGenerator)
    (hv : ∀ n v, (g.mapFieldValue n v).1 = v) (root : Node) :
    (ConvertAST g root).2 = root :=
  convertNodeToQuery_preserves g hv root ""

/-- Witness for C2's amended theorem: the default query generator (whose
value mapper is the identity) leaves `a:v` untouched. -/
theorem convertAST_unchanged_witness :
    (ConvertAST NewQueryGenerator (.isNode "a" (.literal "v"))).2
      = Node.isNode "a" (.literal "v") :=
  convertAST_unchanged_iff_value_mapper_identity NewQueryGenerator (fun _ _ => rfl) _

/-- C2 counterexample: with a field-value mapping hook that rewrites the
value `"v"` to `"w"`, `ConvertAST` does *not* leave the AST unchanged —
the literal under the `Is` node is overwritten in place
(`lit.Value, err = q.mapFieldValue(id, lit.Value)`), contradicting the
claim that the AST is identical before and after for every pair of
hooks. -/
theorem convertAST_mutates_ast_counterexample :
    (ConvertAST ⟨fun n => (n, none), fun _ _ => ("w", none)⟩
        (.isNode "a" (.literal "v"))).2
      ≠ Node.isNode "a" (.literal "v") := by
  intro h
  have heval : (ConvertAST ⟨fun n => (n, none), fun _ _ => ("w", none)⟩
      (.isNode "a" (.literal "v"))).2 = Node.isNode "a" (.literal "w") := rfl
  rw [heval] at h
  injection h with h1 h2
  injection h2 with h3
  exact absurd h3 (by decide)

end Elastic

/-! ## C3 — placeholder keys are exactly KQL0 … KQL(N-1) -/

/-- The operators of the flat-filter data model (spec §3). -/
def flatFilterOperators : List String := ["=", "!=", "<", "<=", ">", ">=", "IN", "<@", ">@"]

set_option maxHeartbeats 2000000 in
theorem applyOperator_not_none (fieldConfig : FilterToSpannerFieldConfig)
    (clauseField columnName paramName : String) (mappedValue : SpannerValue)
    (operator : String) (hop : operator ∈ flatFilterOperators) (v : SpannerValue) :
    applyOperator fieldConfig clauseField columnName paramName mappedValue operator
      ≠ .ok (none, v) := by
  simp only [flatFilterOperators, List.mem_cons, List.not_mem_nil, or_false] at hop
  rcases hop with rfl | rfl | rfl | rfl | rfl | rfl | rfl | rfl | rfl <;>
    · intro h
      simp only [applyOperator] at h
      repeat' split at h
      all_goals
        first
          | exact Except.noConfusion h
          | (injection h with h'
             injection h' with h1 h2
             exact Option.noConfusion h1)

theorem processClause_not_paramOnly (fieldConfigs : List (String × FilterToSpannerFieldConfig))
    (allClauses : List Clause) (paramIndex : Nat) (clause : Clause)
    (hop : clause.Operator ∈ flatFilterOperators) (v : SpannerValue) :
    processClause fieldConfigs allClauses paramIndex clause ≠ .ok (.paramOnly v) := by
  intro h
  simp only [processClause] at h
  repeat' split at h
  all_goals
    first
      | exact Except.noConfusion h
      | (injection h with h'
         exact ClauseOutcome.noConfusion h')
      | (rename_i heq
         exact applyOperator_not_none _ _ _ _ _ _ hop _ heq)

theorem toSpannerSQLLoop_keys (fieldConfigs : List (String × FilterToSpannerFieldConfig))
    (allClauses : List Clause) :
    ∀ (cs : List Clause) (idx : Nat) (conds0 : List String)
      (params0 : List (String × SpannerValue)),
      (∀ c ∈ cs, c.Operator ∈ flatFilterOperators) →
      ∀ conds params idx',
        toSpannerSQLLoop fieldConfigs allClauses cs idx conds0 params0
          = .ok (conds, params, idx') →
        ∃ dconds dparams, conds = conds0 ++ dconds ∧ params = params0 ++ dparams ∧
          dparams.map Prod.fst
            = (List.range' idx dconds.length).map (fun i => "KQL" ++ toString i) ∧
          idx' = idx + dconds.length := by
  intro cs
  induction cs with
  | nil =>
    intro idx conds0 params0 _ conds params idx' h
    simp only [toSpannerSQLLoop] at h
    injection h with h'
    injection h' with h1 h'
    injection h' with h2 h3
    exact ⟨[], [], by simp [h1.symm], by simp [h2.symm], by simp, by simp [h3.symm]⟩
  | cons c cs ih =>
    intro idx conds0 params0 hop conds params idx' h
    simp only [toSpannerSQLLoop] at h
    cases hp : processClause fieldConfigs allClauses idx c with
    | error e => rw [hp] at h; cases h
    | ok outcome =>
      rw [hp] at h
      cases outcome with
      | skipped =>
        exact ih idx conds0 params0 (fun d hd => hop d (List.mem_cons_of_mem _ hd))
          conds params idx' h
      | emitted cond v =>
        obtain ⟨d, e, hconds, hparams, hkeys, hidx⟩ :=
          ih (idx + 1) (conds0 ++ [cond]) (params0 ++ [("KQL" ++ toString idx, v)])
            (fun d hd => hop d (List.mem_cons_of_mem _ hd)) conds params idx' h
        refine ⟨cond :: d, ("KQL" ++ toString idx, v) :: e, ?_, ?_, ?_, ?_⟩
        · simpa [List.append_assoc] using hconds
        · simpa [List.append_assoc] using hparams
        · simp [List.range', hkeys]
        · simp [hidx]; omega
      | paramOnly v =>
        exact absurd hp (processClause_not_paramOnly _ _ _ _ (hop c (by simp)) v)

/-- C3: for every flat filter (whose clauses use the data-model operators
`=`, `!=`, `<`, `<=`, `>`, `>=`, `IN`, `<@`, `>@`) and every field-config
map for which `ToSpannerSQL` succeeds, the parameter map's keys are
exactly `KQL0 … KQL(N-1)` in clause order, where `N` is the number of
returned predicate strings; clauses dropped by `Ignore` consume no index
and add no key. -/
theorem toSpannerSQL_placeholder_keys (f : Filter)
    (fieldConfigs : List (String × FilterToSpannerFieldConfig))
    (hops : ∀ c ∈ f.Clauses, c.Operator ∈ flatFilterOperators)
    (conds : List String) (params : List (String × SpannerValue))
    (h : f.ToSpannerSQL fieldConfigs = .ok (conds, params)) :
    params.map Prod.fst = (List.range conds.length).map (fun i => "KQL" ++ toString i) := by
  simp only [Filter.ToSpannerSQL] at h
  cases hl : toSpannerSQLLoop fieldConfigs f.Clauses f.Clauses 0 [] [] with
  | error e => rw [hl] at h; cases h
  | ok triple =>
    obtain ⟨conds1, params1, idx'⟩ := triple
    rw [hl] at h
    cases hr : checkRequiredFields fieldConfigs f.Clauses with
    | error e => rw [hr] at h; cases h
    | ok u =>
      rw [hr] at h
      injection h with h'
      injection h' with h1 h2
      obtain ⟨d, e, hconds, hparams, hkeys, _⟩ :=
        toSpannerSQLLoop_keys fieldConfigs f.Clauses f.Clauses 0 [] [] hops _ _ _ hl
      subst h1 h2
      simp only [List.nil_append] at hconds hparams
      subst hconds hparams
      rw [hkeys, List.range_eq_range']

/-- Witness for C3: a two-clause filter whose second clause is on an
ignored field lowers to one predicate with parameter keys `[KQL0]`. -/
theorem toSpannerSQL_placeholder_keys_witness :
    (Filter.mk [⟨"a", "=", ["x"]⟩, ⟨"ig", "=", ["y"]⟩]).ToSpannerSQL
        [("a", {ColumnType := .String}), ("ig", {Ignore := true})]
      = .ok (["a=@KQL0"], [("KQL0", .str "x")]) ∧
    ([("KQL0", SpannerValue.str "x")].map Prod.fst
      = (List.range (["a=@KQL0"] : List String).length).map (fun i => "KQL" ++ toString i)) :=
  ⟨rfl, toSpannerSQL_placeholder_keys
    (Filter.mk [⟨"a", "=", ["x"]⟩, ⟨"ig", "=", ["y"]⟩])
    [("a", {ColumnType := .String}), ("ig", {Ignore := true})]
    (by intro c hc; fin_cases hc <;> decide) _ _ (by rfl)⟩

/-! ## Scaffolding for single-clause filters -/

theorem processClause_single (field : String) (cfg : FilterToSpannerFieldConfig)
    (allClauses : List Clause) (idx : Nat) (clause : Clause)
    (hf : clause.Field = field) (hig : cfg.Ignore = false) (hrq : cfg.Requires = []) :
    processClause [(field, cfg)] allClauses idx clause =
      (match cfg.mapValues clause.Values with
       | .error e => .error ("field " ++ clause.Field ++ ": " ++ e)
       | .ok mappedValue =>
         if 1 < clause.Values.length
             && !(clause.Operator = "IN" || clause.Operator = "<@" || clause.Operator = ">@") then
           .error ("operator " ++ clause.Operator ++ " doesn't support multiple values in field: "
             ++ clause.Field)
         else
           match applyOperator cfg clause.Field
               (if cfg.ColumnName = "" then clause.Field else cfg.ColumnName)
               ("KQL" ++ toString idx) mappedValue clause.Operator with
           | .error e => .error e
           | .ok (some cond, v) => .ok (.emitted cond v)
           | .ok (none, v) => .ok (.paramOnly v)) := by
  subst hf
  simp only [processClause, resolveFieldConfig, List.lookup, beq_self_eq_true, hig,
    checkRequires, hrq, checkRequires.go, Bool.false_eq_true, if_false]

theorem toSpannerSQL_single (field : String) (cfg : FilterToSpannerFieldConfig)
    (clause : Clause) (hf : clause.Field = field) :
    Filter.ToSpannerSQL ⟨[clause]⟩ [(field, cfg)] =
      (match processClause [(field, cfg)] [clause] 0 clause with
       | .error e => .error e
       | .ok .skipped => .ok ([], [])
       | .ok (.emitted cond v) => .ok ([cond], [("KQL0", v)])
       | .ok (.paramOnly v) => .ok ([], [("KQL0", v)])) := by
  subst hf
  cases hp : processClause [(clause.Field, cfg)] [clause] 0 clause with
  | error e => simp [Filter.ToSpannerSQL, toSpannerSQLLoop, hp]
  | ok oc =>
    cases oc <;>
      · simp [Filter.ToSpannerSQL, toSpannerSQLLoop, hp, checkRequiredFields]
        try rfl

/-! ## C5 — range operators need AllowRanges and a numeric/timestamp column -/

theorem toSpannerSQL_range_eq (field op v : String) (cfg : FilterToSpannerFieldConfig)
    (hop : op ∈ ["<", "<=", ">", ">="])
    (hig : cfg.Ignore = false) (hrq : cfg.Requires = []) :
    Filter.ToSpannerSQL ⟨[⟨field, op, [v]⟩]⟩ [(field, cfg)] =
      (match cfg.mapValues [v] with
       | .error e => .error ("field " ++ field ++ ": " ++ e)
       | .ok mv =>
         if cfg.AllowRanges = false then
           .error ("operator " ++ op ++ " not supported for field: " ++ field)
         else
           match cfg.ColumnType with
           | .Int64 | .Float64 | .Timestamp =>
             .ok ([(if cfg.ColumnName = "" then field else cfg.ColumnName) ++ op ++ "@" ++ "KQL0"],
               [("KQL0", mv)])
           | t => .error ("operator " ++ op ++ " not supported for field type "
               ++ columnTypeGoString t)) := by
  have hsingle := toSpannerSQL_single field cfg ⟨field, op, [v]⟩ rfl
  rw [processClause_single field cfg [⟨field, op, [v]⟩] 0 ⟨field, op, [v]⟩ rfl hig hrq] at hsingle
  simp only [show ("KQL" ++ toString (0 : Nat) : String) = "KQL0" from rfl] at hsingle
  rw [hsingle]
  simp only [List.mem_cons, List.not_mem_nil, or_false] at hop
  cases hmv : cfg.mapValues [v] with
  | error e => rcases hop with rfl | rfl | rfl | rfl <;> simp
  | ok mv =>
    by_cases har : cfg.AllowRanges = false <;>
      cases hct : cfg.ColumnType <;>
        rcases hop with rfl | rfl | rfl | rfl <;>
          simp [applyOperator, har, hct]

/-- C5 (amended): for a single range clause `field op [v]` with
`op ∈ {<, <=, >, >=}` on a non-ignored, `Requires`-free config:
(a) `ToSpannerSQL` succeeds only when `AllowRanges` is set *and* the
column type is INT64/FLOAT64/TIMESTAMP, in which case it emits the
predicate `col op @KQL0`; (b) when `AllowRanges` is false (and the value
converts) the error names the field and the operator, as in
`userId>=12345` with `allow_ranges=false`; (c) when `AllowRanges` is set
but the column type is outside the set, the error names the operator and
the column type — not the field. -/
theorem toSpannerSQL_range_operator_requires_allowRanges
    (field op v : String) (cfg : FilterToSpannerFieldConfig)
    (hop : op ∈ ["<", "<=", ">", ">="])
    (hig : cfg.Ignore = false) (hrq : cfg.Requires = []) :
    (∀ conds params,
        Filter.ToSpannerSQL ⟨[⟨field, op, [v]⟩]⟩ [(field, cfg)] = .ok (conds, params) →
        cfg.AllowRanges = true
          ∧ cfg.ColumnType ∈ [FilterToSpannerFieldColumnType.Int64, .Float64, .Timestamp]
          ∧ conds = [(if cfg.ColumnName = "" then field else cfg.ColumnName) ++ op ++ "@" ++ "KQL0"])
    ∧ (cfg.AllowRanges = false → (∃ w, cfg.mapValues [v] = .ok w) →
        Filter.ToSpannerSQL ⟨[⟨field, op, [v]⟩]⟩ [(field, cfg)]
          = .error ("operator " ++ op ++ " not supported for field: " ++ field))
    ∧ (cfg.AllowRanges = true
        → cfg.ColumnType ∉ [FilterToSpannerFieldColumnType.Int64, .Float64, .Timestamp]
        → (∃ w, cfg.mapValues [v] = .ok w) →
        Filter.ToSpannerSQL ⟨[⟨field, op, [v]⟩]⟩ [(field, cfg)]
          = .error ("operator " ++ op ++ " not supported for field type "
              ++ columnTypeGoString cfg.ColumnType)) := by
  have hmaster := toSpannerSQL_range_eq field op v cfg hop hig hrq
  refine ⟨?_, ?_, ?_⟩
  · intro conds params hok
    rw [hmaster] at hok
    cases hmv : cfg.mapValues [v] with
    | error e => simp [hmv] at hok
    | ok mv =>
      simp only [hmv] at hok
      by_cases har : cfg.AllowRanges = false
      · simp [har] at hok
      · rw [if_neg har] at hok
        refine ⟨by revert har; cases cfg.AllowRanges <;> simp, ?_⟩
        cases hct : cfg.ColumnType <;> simp only [hct] at hok <;>
          first
            | exact Except.noConfusion hok
            | (injection hok with h'
               injection h' with h1 h2
               exact ⟨by simp [hct], h1.symm⟩)
  · intro har hw
    obtain ⟨w, hw⟩ := hw
    rw [hmaster, hw]
    simp [har]
  · intro har hct hw
    obtain ⟨w, hw⟩ := hw
    rw [hmaster, hw]
    simp only [har]
    cases hcteq : cfg.ColumnType <;> simp [hcteq] at hct ⊢

/-- Witness for C5: `userId>=12345` with an INT64 column and
`allow_ranges=false` produces exactly the operator-not-allowed error
naming the field and operator (spec scenario 8). -/
theorem toSpannerSQL_range_operator_witness :
    Filter.ToSpannerSQL ⟨[⟨"userId", ">=", ["12345"]⟩]⟩
        [("userId", {ColumnType := .Int64, AllowRanges := false})]
      = .error "operator >= not supported for field: userId" :=
  (toSpannerSQL_range_operator_requires_allowRanges "userId" ">=" "12345"
      {ColumnType := .Int64, AllowRanges := false} (by decide) rfl rfl).2.1 rfl
    ⟨.int 12345, rfl⟩

/-- C5 counterexample: with `AllowRanges` set but a STRING column, the
claim says the operator-not-allowed error identifies the field and the
operator; the code's error names the operator and the column *type* and
does not mention the field (`"zz"` does not occur in it). -/
theorem toSpannerSQL_range_type_error_counterexample :
    Filter.ToSpannerSQL ⟨[⟨"zz", ">=", ["12345"]⟩]⟩
        [("zz", {ColumnType := .String, AllowRanges := true})]
      = .error "operator >= not supported for field type STRING"
    ∧ ¬ ("zz".toList <:+: "operator >= not supported for field type STRING".toList) :=
  ⟨rfl, by decide⟩

/-! ## C4 — IN and allow_multiple_values -/

/-- C4 counterexample: an `IN` clause with a *single* value on a field
whose config lacks `allow_multiple_values` succeeds (the value is
unwrapped to a scalar before the multiple-values check), emitting
`a IN UNNEST(@KQL0)` — the claim says it must fail. -/
theorem toSpannerSQL_single_value_in_counterexample :
    Filter.ToSpannerSQL ⟨[⟨"a", "IN", ["v"]⟩]⟩ [("a", {ColumnType := .String})]
      = .ok (["a IN UNNEST(@KQL0)"], [("KQL0", .strSlice ["v"])]) := rfl

theorem applyOperator_in_shape (cfg : FilterToSpannerFieldConfig)
    (f col p : String) (mv : SpannerValue) (o : Option String) (v : SpannerValue)
    (h : applyOperator cfg f col p mv "IN" = .ok (o, v)) :
    o = some (col ++ " " ++ "IN" ++ " UNNEST(@" ++ p ++ ")") := by
  simp only [applyOperator] at h
  repeat' split at h
  all_goals
    first
      | exact Except.noConfusion h
      | (injection h with h'
         injection h' with h1 h2
         exact h1.symm)
      | simp_all

/-- C4 (amended): (i) an `IN` clause with two or more values on a
(hook-free, non-ignored, `Requires`-free) config that has none of
`AllowMultipleValues`/`AllowContains`/`AllowContainedBy` fails with the
multiple-values error; (ii) whenever a single-clause `IN` lowering
succeeds, the emitted predicate is `col IN UNNEST(@KQL0)` — also for a
one-value clause on a config without `AllowMultipleValues`. -/
theorem toSpannerSQL_in_multiple_values (field : String) (vs : List String)
    (cfg : FilterToSpannerFieldConfig)
    (hig : cfg.Ignore = false) (hrq : cfg.Requires = []) :
    (2 ≤ vs.length → cfg.MapValue = none → cfg.AllowMultipleValues = false →
      cfg.AllowContains = false → cfg.AllowContainedBy = false →
      Filter.ToSpannerSQL ⟨[⟨field, "IN", vs⟩]⟩ [(field, cfg)]
        = .error ("field " ++ field ++ ": " ++ "multiple values are not allowed"))
    ∧ (∀ conds params,
        Filter.ToSpannerSQL ⟨[⟨field, "IN", vs⟩]⟩ [(field, cfg)] = .ok (conds, params) →
        conds = [(if cfg.ColumnName = "" then field else cfg.ColumnName)
          ++ " " ++ "IN" ++ " UNNEST(@" ++ "KQL0" ++ ")"]) := by
  have hsingle := toSpannerSQL_single field cfg ⟨field, "IN", vs⟩ rfl
  rw [processClause_single field cfg [⟨field, "IN", vs⟩] 0 ⟨field, "IN", vs⟩ rfl hig hrq]
    at hsingle
  simp only [show ("KQL" ++ toString (0 : Nat) : String) = "KQL0" from rfl] at hsingle
  constructor
  · intro hlen hmap hmulti hcont hcontBy
    have hmv : cfg.mapValues vs = .error "multiple values are not allowed" := by
      match vs, hlen with
      | a :: b :: rest, _ =>
        simp [FilterToSpannerFieldConfig.mapValues, hmap, unwrapSlice, SpannerValue.isSlice,
          hmulti, hcont, hcontBy]
    rw [hsingle, hmv]
  · intro conds params hok
    rw [hsingle] at hok
    cases hmv : cfg.mapValues vs with
    | error e => simp [hmv] at hok
    | ok mv =>
      simp only [hmv] at hok
      rw [if_neg (by simp)] at hok
      cases hao : applyOperator cfg field (if cfg.ColumnName = "" then field else cfg.ColumnName)
          "KQL0" mv "IN" with
      | error e => simp [hao] at hok
      | ok p =>
        obtain ⟨o, w⟩ := p
        simp only [hao] at hok
        cases o with
        | none => exact absurd hao (applyOperator_not_none _ _ _ _ _ _ (by decide) w)
        | some cond =>
          have hshape := applyOperator_in_shape cfg field
            (if cfg.ColumnName = "" then field else cfg.ColumnName) "KQL0" mv _ w hao
          injection hshape with hcond
          injection hok with h'
          injection h' with h1 h2
          rw [← h1, hcond]

/-- Witness for C4's amended theorem: a two-value `IN` on a field
without `allow_multiple_values` fails with the multiple-values error. -/
theorem toSpannerSQL_in_multiple_values_witness :
    Filter.ToSpannerSQL ⟨[⟨"state", "IN", ["active", "canceled"]⟩]⟩
        [("state", {ColumnType := .String})]
      = .error "field state: multiple values are not allowed" :=
  (toSpannerSQL_in_multiple_values "state" ["active", "canceled"]
      {ColumnType := .String} rfl rfl).1 (by decide) rfl rfl rfl rfl

/-! ## C6 / C10 — prefix-match escaping on string equality clauses -/

theorem mapValues_string_single (cfg : FilterToSpannerFieldConfig) (v : String)
    (hmap : cfg.MapValue = none) (hct : cfg.ColumnType = .String) :
    cfg.mapValues [v] = .ok (.str v) := by
  simp [FilterToSpannerFieldConfig.mapValues, hmap, unwrapSlice, SpannerValue.isSlice,
    FilterToSpannerFieldConfig.convertValue, hct]

/-- C6: on a STRING column with `allow_prefix_match` (and without
case-insensitive or suffix matching), an equality clause whose (mapped)
string value ends in an unescaped `*` lowers to `col LIKE @KQL0`, with
the parameter bound to the value with `\`, `_` and `%` escaped and the
trailing `*` replaced by `%`. -/
theorem toSpannerSQL_prefix_match_escapes (field v : String)
    (cfg : FilterToSpannerFieldConfig)
    (hct : cfg.ColumnType = .String) (hmap : cfg.MapValue = none)
    (hpm : cfg.AllowPrefixMatch = true) (hci : cfg.AllowCaseInsensitiveMatch = false)
    (hsm : cfg.AllowSuffixMatch = false)
    (hig : cfg.Ignore = false) (hrq : cfg.Requires = [])
    (hstar : hasSuffix v "*" = true) (hesc : hasSuffix v "\\*" = false) :
    Filter.ToSpannerSQL ⟨[⟨field, "=", [v]⟩]⟩ [(field, cfg)]
      = .ok ([(if cfg.ColumnName = "" then field else cfg.ColumnName)
            ++ " LIKE " ++ "@" ++ "KQL0"],
          [("KQL0", .str (dropLastChar (escapePrefixSuffixSpecialChars v) ++ "%"))]) := by
  have hsingle := toSpannerSQL_single field cfg ⟨field, "=", [v]⟩ rfl
  rw [processClause_single field cfg [⟨field, "=", [v]⟩] 0 ⟨field, "=", [v]⟩ rfl hig hrq]
    at hsingle
  simp only [show ("KQL" ++ toString (0 : Nat) : String) = "KQL0" from rfl] at hsingle
  rw [hsingle, mapValues_string_single cfg v hmap hct]
  simp [applyOperator, hpm, hci, hsm, hstar, hesc]

/-- Witness for C6: spec scenario 4 — the value `Monday_%a\_\%\**` on a
prefix-matchable STRING column lowers to `self_intro LIKE @KQL0` with
parameter `Monday\_\%a\\\_\\\%\\*%`. -/
theorem toSpannerSQL_prefix_match_escapes_witness :
    Filter.ToSpannerSQL ⟨[⟨"self_intro", "=", ["Monday_%a\\_\\%\\**"]⟩]⟩
        [("self_intro", {ColumnType := .String, AllowPrefixMatch := true})]
      = .ok (["self_intro LIKE @KQL0"],
          [("KQL0", .str "Monday\\_\\%a\\\\\\_\\\\\\%\\\\*%")]) :=
  toSpannerSQL_prefix_match_escapes "self_intro" "Monday_%a\\_\\%\\**"
    {ColumnType := .String, AllowPrefixMatch := true}
    rfl rfl rfl rfl rfl rfl rfl (by decide) (by decide)

/-- C10: an equality clause on a STRING column whose value ends in an
*escaped* star (`\*`) is not rewritten to a LIKE even with
`AllowPrefixMatch` set: it lowers to plain `col=@KQL0` with the value
bound unchanged and no character escaping performed. -/
theorem toSpannerSQL_escaped_star_plain_equality (field v : String)
    (cfg : FilterToSpannerFieldConfig)
    (hct : cfg.ColumnType = .String) (hmap : cfg.MapValue = none)
    (hsm : cfg.AllowSuffixMatch = false)
    (hig : cfg.Ignore = false) (hrq : cfg.Requires = [])
    (hesc : hasSuffix v "\\*" = true) :
    Filter.ToSpannerSQL ⟨[⟨field, "=", [v]⟩]⟩ [(field, cfg)]
      = .ok ([(if cfg.ColumnName = "" then field else cfg.ColumnName) ++ "=" ++ "@" ++ "KQL0"],
          [("KQL0", .str v)]) := by
  have hsingle := toSpannerSQL_single field cfg ⟨field, "=", [v]⟩ rfl
  rw [processClause_single field cfg [⟨field, "=", [v]⟩] 0 ⟨field, "=", [v]⟩ rfl hig hrq]
    at hsingle
  simp only [show ("KQL" ++ toString (0 : Nat) : String) = "KQL0" from rfl] at hsingle
  rw [hsingle, mapValues_string_single cfg v hmap hct]
  simp [applyOperator, hsm, hesc]

/-- Witness for C10: `a:abc\*` with `allow_prefix_match` still lowers to
plain equality with the value untouched. -/
theorem toSpannerSQL_escaped_star_plain_equality_witness :
    Filter.ToSpannerSQL ⟨[⟨"a", "=", ["abc\\*"]⟩]⟩
        [("a", {ColumnType := .String, AllowPrefixMatch := true})]
      = .ok (["a=@KQL0"], [("KQL0", .str "abc\\*")]) :=
  toSpannerSQL_escaped_star_plain_equality "a" "abc\\*"
    {ColumnType := .String, AllowPrefixMatch := true}
    rfl rfl rfl rfl rfl (by decide)

/-! ## C7 — bare boolean literals and the `1 = @p` sentinel channel -/

/-- C7: (a) `convertLiteralNode` maps `true` to the sentinel clause
`("1", "=", ["1"])` and `false` to `("1", "=", ["0"])`, rejecting every
other bare literal; (b) `ToSpannerSQL` lowers the sentinel clause (when
the field `"1"` resolves to no config or alias) as the predicate
`1=@KQL0` on column `"1"` with value coerced to `int64` `1`/`0`, and
rejects any other unresolved clause with the unknown-field error. -/
theorem convertLiteral_and_sentinel_lowering :
    convertLiteralNode "true" = .ok ⟨[⟨"1", "=", ["1"]⟩]⟩
    ∧ convertLiteralNode "false" = .ok ⟨[⟨"1", "=", ["0"]⟩]⟩
    ∧ (∀ s, s ≠ "true" → s ≠ "false" →
        convertLiteralNode s = .error ("only boolean literals are supported; " ++ s))
    ∧ Filter.ToSpannerSQL ⟨[⟨"1", "=", ["1"]⟩]⟩ [] = .ok (["1=@KQL0"], [("KQL0", .int 1)])
    ∧ Filter.ToSpannerSQL ⟨[⟨"1", "=", ["0"]⟩]⟩ [] = .ok (["1=@KQL0"], [("KQL0", .int 0)])
    ∧ (∀ field op vs, ¬(field = "1" ∧ op = "=" ∧ (vs = ["1"] ∨ vs = ["0"])) →
        Filter.ToSpannerSQL ⟨[⟨field, op, vs⟩]⟩ []
          = .error ("unknown field: " ++ field)) := by
  refine ⟨rfl, rfl, ?_, rfl, rfl, ?_⟩
  · intro s h1 h2
    simp [convertLiteralNode, h1, h2]
  · intro field op vs h
    have hcond : isBoolLiteralSentinel ⟨field, op, vs⟩ = false := by
      rw [Bool.eq_false_iff]
      intro hbb
      have hbb' : (field = "1" ∧ op = "=") ∧ (vs = ["1"] ∨ vs = ["0"]) := by
        simpa [isBoolLiteralSentinel] using hbb
      exact h ⟨hbb'.1.1, hbb'.1.2, hbb'.2⟩
    have hres : resolveFieldConfig [] field = none := rfl
    simp [Filter.ToSpannerSQL, toSpannerSQLLoop, processClause, hres, hcond]

/-- Witness for C7's quantified parts: `maybe` is rejected as a bare
literal, and an unresolved field `password` is an unknown-field error. -/
theorem convertLiteral_and_sentinel_lowering_witness :
    convertLiteralNode "maybe" = .error "only boolean literals are supported; maybe"
    ∧ Filter.ToSpannerSQL ⟨[⟨"password", "=", ["x"]⟩]⟩ []
        = .error "unknown field: password" :=
  ⟨convertLiteral_and_sentinel_lowering.2.2.1 "maybe" (by decide) (by decide),
   convertLiteral_and_sentinel_lowering.2.2.2.2.2 "password" "=" ["x"]
     (by intro hx; exact absurd hx.1 (by decide))⟩

/-! ## C8 — the at-most-twice-per-field cap of the projector -/

theorem checkFieldCounts_error_msg (cs : List Clause) :
    ∀ (seen : List String) (e : String), checkFieldCounts cs seen = .error e →
      e = "field count maximum in filter exceeded" := by
  induction cs with
  | nil => intro seen e h; exact Except.noConfusion h
  | cons c cs ih =>
    intro seen e h
    rw [checkFieldCounts] at h
    split at h
    · injection h with h'; exact h'.symm
    · exact ih _ _ h

theorem checkFieldCounts_ok_iff (cs : List Clause) :
    ∀ seen : List String, (∀ f, seen.count f ≤ 2) →
      (checkFieldCounts cs seen = .ok () ↔
        ∀ f, seen.count f + ((cs.map Clause.Field).count f) ≤ 2) := by
  induction cs with
  | nil =>
    intro seen hpre
    simp only [checkFieldCounts, List.map_nil, List.count_nil, Nat.add_zero]
    exact ⟨fun _ f => hpre f, fun _ => by trivial⟩
  | cons c cs ih =>
    intro seen hpre
    by_cases hc : 2 < seen.count c.Field + 1
    · rw [checkFieldCounts, if_pos hc]
      constructor
      · intro h; exact Except.noConfusion h
      · intro hall
        exfalso
        have := hall c.Field
        simp only [List.map_cons, List.count_cons] at this
        simp at this
        omega
    · rw [checkFieldCounts, if_neg hc]
      have hpre' : ∀ f, (c.Field :: seen).count f ≤ 2 := by
        intro f
        by_cases hf : f = c.Field
        · subst hf
          simp only [List.count_cons]
          simp
          omega
        · simpa [List.count_cons, hf] using hpre f
      rw [ih (c.Field :: seen) hpre']
      constructor
      · intro hall f
        have := hall f
        by_cases hf : f = c.Field <;>
          · simp_all [List.count_cons]
            try omega
      · intro hall f
        have := hall f
        by_cases hf : f = c.Field <;>
          · simp_all [List.count_cons]
            try omega

/-- C8: when every child of an `And` node projects individually
(`mapM convertAndChild` succeeds), `convertAndNode` fails with the
field-count error exactly when some field name occurs more than twice
among the concatenated projected clauses; with every field occurring at
most twice it returns all clauses in input order. -/
theorem convertAndNode_field_cap (children : List Node) (fls : List Filter)
    (h : children.mapM convertAndChild = .ok fls) :
    ((∃ f, 2 < (((fls.map Filter.Clauses).flatten.map Clause.Field).count f)) →
      convertAndNode children = .error "field count maximum in filter exceeded")
    ∧ ((∀ f, (((fls.map Filter.Clauses).flatten.map Clause.Field).count f) ≤ 2) →
      convertAndNode children = .ok ⟨(fls.map Filter.Clauses).flatten⟩) := by
  have hiff := checkFieldCounts_ok_iff ((fls.map Filter.Clauses).flatten) [] (by simp)
  simp only [List.count_nil, Nat.zero_add] at hiff
  constructor
  · intro ⟨f, hf⟩
    simp only [convertAndNode, h]
    cases hck : checkFieldCounts ((fls.map Filter.Clauses).flatten) [] with
    | ok u =>
      exfalso
      obtain ⟨⟩ := u
      have := hiff.mp hck f
      omega
    | error e =>
      rw [checkFieldCounts_error_msg _ _ _ hck]
  · intro hall
    simp only [convertAndNode, h]
    rw [hiff.mpr hall]

/-- Witness for C8: three `Is` children on fields `a`, `a`, `b` (no
field more than twice) project to the three clauses in input order. -/
theorem convertAndNode_field_cap_witness :
    convertAndNode [.isNode "a" (.literal "1"), .isNode "a" (.literal "2"),
        .isNode "b" (.literal "3")]
      = .ok ⟨[⟨"a", "=", ["1"]⟩, ⟨"a", "=", ["2"]⟩, ⟨"b", "=", ["3"]⟩]⟩ :=
  (convertAndNode_field_cap
      [.isNode "a" (.literal "1"), .isNode "a" (.literal "2"), .isNode "b" (.literal "3")]
      [⟨[⟨"a", "=", ["1"]⟩]⟩, ⟨[⟨"a", "=", ["2"]⟩]⟩, ⟨[⟨"b", "=", ["3"]⟩]⟩] rfl).2
    (by
      intro f
      show (["a", "a", "b"] : List String).count f ≤ 2
      by_cases h1 : f = "a" <;> by_cases h2 : f = "b" <;>
        simp_all [List.count_cons, List.count_nil])

/-! ## C9 — IN deduplication keeps first occurrences -/

theorem mapValues_string_parse (cfg : FilterToSpannerFieldConfig) (vs : List String)
    (hmap : cfg.MapValue = none) (hct : cfg.ColumnType = .String)
    (mv : SpannerValue) (h : cfg.mapValues vs = .ok mv) :
    parseAnyToSliceString mv = .ok vs := by
  rcases vs with _ | ⟨v, _ | ⟨b, rest⟩⟩
  · simp only [FilterToSpannerFieldConfig.mapValues, hmap, unwrapSlice] at h
    split at h
    · exact Except.noConfusion h
    · simp only [hct] at h
      injection h with h'
      subst h'
      rfl
  · simp only [FilterToSpannerFieldConfig.mapValues, hmap, unwrapSlice,
      SpannerValue.isSlice, Bool.and_false, FilterToSpannerFieldConfig.convertValue, hct] at h
    simp at h
    subst h
    rfl
  · simp only [FilterToSpannerFieldConfig.mapValues, hmap, unwrapSlice] at h
    split at h
    · exact Except.noConfusion h
    · simp only [hct] at h
      injection h with h'
      subst h'
      rfl

theorem mapValues_int64_parse (cfg : FilterToSpannerFieldConfig) (vs : List String)
    (hmap : cfg.MapValue = none) (hct : cfg.ColumnType = .Int64)
    (mv : SpannerValue) (h : cfg.mapValues vs = .ok mv) :
    ∃ ws, vs.mapM convertInt64 = .ok ws ∧ parseAnyToSliceInt64 mv = .ok ws := by
  rcases vs with _ | ⟨v, _ | ⟨b, rest⟩⟩
  · simp only [FilterToSpannerFieldConfig.mapValues, hmap, unwrapSlice] at h
    split at h
    · exact Except.noConfusion h
    · simp only [hct, List.mapM_nil] at h
      injection h with h'
      subst h'
      exact ⟨[], rfl, rfl⟩
  · simp only [FilterToSpannerFieldConfig.mapValues, hmap, unwrapSlice,
      SpannerValue.isSlice, Bool.and_false, FilterToSpannerFieldConfig.convertValue, hct] at h
    cases hcv : convertInt64 v with
    | error e => rw [hcv] at h; exact Except.noConfusion h
    | ok i =>
      rw [hcv] at h
      injection h with h'
      subst h'
      exact ⟨[i], by simp [List.mapM, List.mapM.loop, hcv], rfl⟩
  · simp only [FilterToSpannerFieldConfig.mapValues, hmap, unwrapSlice] at h
    split at h
    · exact Except.noConfusion h
    · simp only [hct] at h
      cases hws : (v :: b :: rest).mapM convertInt64 with
      | error e => rw [hws] at h; exact Except.noConfusion h
      | ok ws =>
        rw [hws] at h
        injection h with h'
        subst h'
        exact ⟨ws, rfl, rfl⟩

theorem mapValues_float64_parse (cfg : FilterToSpannerFieldConfig) (vs : List String)
    (hmap : cfg.MapValue = none) (hct : cfg.ColumnType = .Float64)
    (mv : SpannerValue) (h : cfg.mapValues vs = .ok mv) :
    ∃ ws, vs.mapM convertFloat64 = .ok ws ∧ parseAnyToSliceFloat64 mv = .ok ws := by
  rcases vs with _ | ⟨v, _ | ⟨b, rest⟩⟩
  · simp only [FilterToSpannerFieldConfig.mapValues, hmap, unwrapSlice] at h
    split at h
    · exact Except.noConfusion h
    · simp only [hct, List.mapM_nil] at h
      injection h with h'
      subst h'
      exact ⟨[], rfl, rfl⟩
  · simp only [FilterToSpannerFieldConfig.mapValues, hmap, unwrapSlice,
      SpannerValue.isSlice, Bool.and_false, FilterToSpannerFieldConfig.convertValue, hct] at h
    cases hcv : convertFloat64 v with
    | error e => rw [hcv] at h; exact Except.noConfusion h
    | ok q =>
      rw [hcv] at h
      injection h with h'
      subst h'
      exact ⟨[q], by simp [List.mapM, List.mapM.loop, hcv], rfl⟩
  · simp only [FilterToSpannerFieldConfig.mapValues, hmap, unwrapSlice] at h
    split at h
    · exact Except.noConfusion h
    · simp only [hct] at h
      cases hws : (v :: b :: rest).mapM convertFloat64 with
      | error e => rw [hws] at h; exact Except.noConfusion h
      | ok ws =>
        rw [hws] at h
        injection h with h'
        subst h'
        exact ⟨ws, rfl, rfl⟩

theorem mapValues_timestamp_parse (cfg : FilterToSpannerFieldConfig) (vs : List String)
    (hmap : cfg.MapValue = none) (hct : cfg.ColumnType = .Timestamp)
    (mv : SpannerValue) (h : cfg.mapValues vs = .ok mv) :
    ∃ ws, vs.mapM convertTimestamp = .ok ws ∧ parseAnyToSliceTime mv = .ok ws := by
  rcases vs with _ | ⟨v, _ | ⟨b, rest⟩⟩
  · simp only [FilterToSpannerFieldConfig.mapValues, hmap, unwrapSlice] at h
    split at h
    · exact Except.noConfusion h
    · simp only [hct, List.mapM_nil] at h
      injection h with h'
      subst h'
      exact ⟨[], rfl, rfl⟩
  · simp only [FilterToSpannerFieldConfig.mapValues, hmap, unwrapSlice,
      SpannerValue.isSlice, Bool.and_false, FilterToSpannerFieldConfig.convertValue, hct] at h
    cases hcv : convertTimestamp v with
    | error e => rw [hcv] at h; exact Except.noConfusion h
    | ok t =>
      rw [hcv] at h
      injection h with h'
      subst h'
      exact ⟨[t], by simp [List.mapM, List.mapM.loop, hcv], rfl⟩
  · simp only [FilterToSpannerFieldConfig.mapValues, hmap, unwrapSlice] at h
    split at h
    · exact Except.noConfusion h
    · simp only [hct] at h
      cases hws : (v :: b :: rest).mapM convertTimestamp with
      | error e => rw [hws] at h; exact Except.noConfusion h
      | ok ws =>
        rw [hws] at h
        injection h with h'
        subst h'
        exact ⟨ws, rfl, rfl⟩

/-- C9: whenever a single-clause `IN` lowering over a STRING / INT64 /
FLOAT64 / TIMESTAMP column succeeds (without a `MapValue` hook), the
array bound to `KQL0` is `uniqueSliceElements` of the coerced values,
which has no duplicate elements and equals the first-occurrence
deduplication (`firstOccur`, the spec's wording) of the coerced values. -/
theorem toSpannerSQL_in_dedup (field : String) (vs : List String)
    (cfg : FilterToSpannerFieldConfig)
    (hmap : cfg.MapValue = none) (hig : cfg.Ignore = false) (hrq : cfg.Requires = []) :
    (cfg.ColumnType = .String →
      ∀ conds params,
        Filter.ToSpannerSQL ⟨[⟨field, "IN", vs⟩]⟩ [(field, cfg)] = .ok (conds, params) →
        params = [("KQL0", .strSlice (uniqueSliceElements vs))]
          ∧ (uniqueSliceElements vs).Nodup ∧ uniqueSliceElements vs = firstOccur vs)
    ∧ (cfg.ColumnType = .Int64 →
      ∀ conds params,
        Filter.ToSpannerSQL ⟨[⟨field, "IN", vs⟩]⟩ [(field, cfg)] = .ok (conds, params) →
        ∃ ws, vs.mapM convertInt64 = .ok ws
          ∧ params = [("KQL0", .intSlice (uniqueSliceElements ws))]
          ∧ (uniqueSliceElements ws).Nodup ∧ uniqueSliceElements ws = firstOccur ws)
    ∧ (cfg.ColumnType = .Float64 →
      ∀ conds params,
        Filter.ToSpannerSQL ⟨[⟨field, "IN", vs⟩]⟩ [(field, cfg)] = .ok (conds, params) →
        ∃ ws, vs.mapM convertFloat64 = .ok ws
          ∧ params = [("KQL0", .floatSlice (uniqueSliceElements ws))]
          ∧ (uniqueSliceElements ws).Nodup ∧ uniqueSliceElements ws = firstOccur ws)
    ∧ (cfg.ColumnType = .Timestamp →
      ∀ conds params,
        Filter.ToSpannerSQL ⟨[⟨field, "IN", vs⟩]⟩ [(field, cfg)] = .ok (conds, params) →
        ∃ ws, vs.mapM convertTimestamp = .ok ws
          ∧ params = [("KQL0", .timeSlice (uniqueSliceElements ws))]
          ∧ (uniqueSliceElements ws).Nodup ∧ uniqueSliceElements ws = firstOccur ws) := by
  have hsingle := toSpannerSQL_single field cfg ⟨field, "IN", vs⟩ rfl
  rw [processClause_single field cfg [⟨field, "IN", vs⟩] 0 ⟨field, "IN", vs⟩ rfl hig hrq]
    at hsingle
  simp only [show ("KQL" ++ toString (0 : Nat) : String) = "KQL0" from rfl] at hsingle
  refine ⟨?_, ?_, ?_, ?_⟩
  · intro hct conds params hok
    rw [hsingle] at hok
    cases hmv : cfg.mapValues vs with
    | error e => simp [hmv] at hok
    | ok mv =>
      have hparse := mapValues_string_parse cfg vs hmap hct mv hmv
      simp only [hmv] at hok
      rw [if_neg (by simp)] at hok
      simp only [applyOperator, hct, hparse, Except.map] at hok
      simp only [reduceIte] at hok
      injection hok with h'
      injection h' with h1 h2
      exact ⟨h2.symm, uniqueSliceElements_nodup vs, uniqueSliceElements_eq_firstOccur vs⟩
  · intro hct conds params hok
    rw [hsingle] at hok
    cases hmv : cfg.mapValues vs with
    | error e => simp [hmv] at hok
    | ok mv =>
      obtain ⟨ws, hws, hparse⟩ := mapValues_int64_parse cfg vs hmap hct mv hmv
      simp only [hmv] at hok
      rw [if_neg (by simp)] at hok
      simp only [applyOperator, hct, hparse, Except.map] at hok
      simp only [reduceIte] at hok
      injection hok with h'
      injection h' with h1 h2
      exact ⟨ws, hws, h2.symm, uniqueSliceElements_nodup ws, uniqueSliceElements_eq_firstOccur ws⟩
  · intro hct conds params hok
    rw [hsingle] at hok
    cases hmv : cfg.mapValues vs with
    | error e => simp [hmv] at hok
    | ok mv =>
      obtain ⟨ws, hws, hparse⟩ := mapValues_float64_parse cfg vs hmap hct mv hmv
      simp only [hmv] at hok
      rw [if_neg (by simp)] at hok
      simp only [applyOperator, hct, hparse, Except.map] at hok
      simp only [reduceIte] at hok
      injection hok with h'
      injection h' with h1 h2
      exact ⟨ws, hws, h2.symm, uniqueSliceElements_nodup ws, uniqueSliceElements_eq_firstOccur ws⟩
  · intro hct conds params hok
    rw [hsingle] at hok
    cases hmv : cfg.mapValues vs with
    | error e => simp [hmv] at hok
    | ok mv =>
      obtain ⟨ws, hws, hparse⟩ := mapValues_timestamp_parse cfg vs hmap hct mv hmv
      simp only [hmv] at hok
      rw [if_neg (by simp)] at hok
      simp only [applyOperator, hct, hparse, Except.map] at hok
      simp only [reduceIte] at hok
      injection hok with h'
      injection h' with h1 h2
      exact ⟨ws, hws, h2.symm, uniqueSliceElements_nodup ws, uniqueSliceElements_eq_firstOccur ws⟩

/-- Witness for C9: `state:(active OR active OR Active)` dedups to
`["active", "Active"]`, keeping first occurrences in order. -/
theorem toSpannerSQL_in_dedup_witness :
    Filter.ToSpannerSQL ⟨[⟨"state", "IN", ["active", "active", "Active"]⟩]⟩
        [("state", {ColumnType := .String, AllowMultipleValues := true})]
      = .ok (["state IN UNNEST(@KQL0)"], [("KQL0", .strSlice ["active", "Active"])])
    ∧ ([("KQL0", SpannerValue.strSlice ["active", "Active"])] : List (String × SpannerValue))
        = [("KQL0", SpannerValue.strSlice (uniqueSliceElements ["active", "active", "Active"]))]
    ∧ (uniqueSliceElements ["active", "active", "Active"]).Nodup
    ∧ uniqueSliceElements ["active", "active", "Active"]
        = firstOccur ["active", "active", "Active"] := by
  have h := (toSpannerSQL_in_dedup "state" ["active", "active", "Active"]
      {ColumnType := .String, AllowMultipleValues := true} rfl rfl rfl).1 rfl
      ["state IN UNNEST(@KQL0)"] [("KQL0", .strSlice ["active", "Active"])] rfl
  exact ⟨rfl, h.1, h.2.1, h.2.2⟩

end Kqlfilter
